import Mathlib

/-!
Verification development for the test-case generation backend
(`backend/app`): shallow embedding of the output parser
(`services/test_parser.py`), the deduplicator
(`services/deduplicator.py`), the Gemini call chain
(`services/gemini_chain.py`) and the GitHub Models rate limiter
(`services/github_models_chain.py`), together with theorems settling
the specification claims.

Modelling conventions:
* Python JSON values are the inductive `Json` below; `dict.get` is an
  association-list lookup (first match, as Python dicts have unique keys).
* Machine floats appear only as the Jaccard ratio and the 0.85 threshold;
  they are modelled as exact rationals (the source compares
  `len(∩)/len(∪) >= 0.85`; for the set sizes reachable here the float
  comparison agrees with the rational one).
* uuid-generated identifiers (`test_id`, `suite_id`) and wall-clock
  timestamps are external nondeterminism with no bearing on any claim;
  identifier fields are kept with a fixed placeholder value and the
  `generated_at` timestamp field is omitted.
* Fallible Python code (pydantic validation, `raise`) is modelled with
  explicit result types; exceptions caught by the source are modelled by
  the same local handling the source performs.
-/

namespace TCGen

/-! ### Python-style string helpers -/

/-- Does `needle` start the character list `hay`? -/
def startsWithL : List Char → List Char → Bool
  | [], _ => true
  | _ :: _, [] => false
  | n :: ns, h :: hs => n == h && startsWithL ns hs

/-- Is `needle` a contiguous segment of `hay`?  (Python `needle in hay`.) -/
def containsSegL (needle : List Char) : List Char → Bool
  | [] => startsWithL needle []
  | h :: hs => startsWithL needle (h :: hs) || containsSegL needle hs

/-- Python's substring test `needle in hay` for strings. -/
def strContains (hay needle : String) : Bool :=
  containsSegL needle.toList hay.toList

/-- Python `sep.join(parts)`. -/
def pyJoin (sep : String) : List String → String
  | [] => ""
  | [s] => s
  | s :: rest => s ++ sep ++ pyJoin sep rest

/-- Python `str.lower()` (ASCII; the text this system handles).  Defined
over the character list so it reduces definitionally. -/
def pyLower (s : String) : String := ⟨s.data.map Char.toLower⟩

/-- The whitespace characters Python `str.strip()` removes. -/
def isPySpace (c : Char) : Bool :=
  c == ' ' || c == '\t' || c == '\n' || c == '\r' || c == '\x0b' || c == '\x0c'

/-- Python `str.strip()`. -/
def pyStrip (s : String) : String :=
  ⟨((s.data.dropWhile isPySpace).reverse.dropWhile isPySpace).reverse⟩

/-- Python `str.replace(old, new)` for a one-character pattern (the only
use in the source is `.replace(" ", "_")`). -/
def pyReplaceChar (s : String) (pat sub : Char) : String :=
  ⟨s.data.map (fun c => if c == pat then sub else c)⟩

/-- Python `s[:n]` (slicing by code points). -/
def pyTake (s : String) (n : Nat) : String := ⟨s.data.take n⟩

/-- Python `str.split(sep)` for the one-character separator `"\n"`. -/
def pySplitNL : List Char → List String
  | [] => [""]
  | c :: cs =>
    if c == '\n' then "" :: pySplitNL cs
    else
      match pySplitNL cs with
      | [] => [String.mk [c]]
      | part :: parts => (String.mk [c] ++ part) :: parts

/-! ### JSON values

`Json` models the values `json.loads` can produce.  JSON numbers are
modelled as integers; no claim depends on fractional numerics. -/

mutual
inductive Json where
  | null
  | bool (b : Bool)
  | num (n : Int)
  | str (s : String)
  | arr (xs : JsonList)
  | obj (fields : JsonFields)

/-- A list of JSON values (a separate inductive so recursion over nested
values is structural and kernel-reducible). -/
inductive JsonList where
  | nil
  | cons (v : Json) (tl : JsonList)

/-- The fields of a JSON object, in insertion order (Python dicts keep
it; keys are unique). -/
inductive JsonFields where
  | nil
  | cons (k : String) (v : Json) (tl : JsonFields)
end

/-- The values of a JSON list, as a Lean list. -/
def JsonList.toList : JsonList → List Json
  | .nil => []
  | .cons v tl => v :: tl.toList

/-- Build a JSON list from a Lean list. -/
def JsonList.ofList : List Json → JsonList
  | [] => .nil
  | v :: vs => .cons v (JsonList.ofList vs)

/-- Build a JSON object's fields from a Lean list. -/
def JsonFields.ofList : List (String × Json) → JsonFields
  | [] => .nil
  | (k, v) :: fs => .cons k v (JsonFields.ofList fs)

def JsonList.isEmpty : JsonList → Bool
  | .nil => true
  | .cons _ _ => false

def JsonFields.isEmpty : JsonFields → Bool
  | .nil => true
  | .cons _ _ _ => false

/-- The keys of a JSON object, in order (Python iterates a dict by
keys). -/
def JsonFields.keys : JsonFields → List String
  | .nil => []
  | .cons k _ tl => k :: tl.keys

/-- Python `dict.get(key)` on a JSON object (keys unique; first match). -/
def jsonGet : JsonFields → String → Option Json
  | .nil, _ => none
  | .cons k v tl, key => if k == key then some v else jsonGet tl key

mutual
/-- Python `str(value)` for a JSON value.  Scalars mirror Python exactly
(`str(None) = "None"`, `str(True) = "True"`, `str(5) = "5"`); containers
use Python `repr` of elements.  Escape sequences inside represented
strings are not reproduced (no claim depends on them). -/
def pyStr : Json → String
  | .null => "None"
  | .bool b => if b then "True" else "False"
  | .num n => toString n
  | .str s => s
  | .arr xs => "[" ++ pyJoin ", " (pyReprList xs) ++ "]"
  | .obj fs => "\x7b" ++ pyJoin ", " (pyReprFields fs) ++ "\x7d"

def pyReprList : JsonList → List String
  | .nil => []
  | .cons (.str s) vs => ("'" ++ s ++ "'") :: pyReprList vs
  | .cons v vs => pyStr v :: pyReprList vs

def pyReprFields : JsonFields → List String
  | .nil => []
  | .cons k (.str s) fs => ("'" ++ k ++ "': '" ++ s ++ "'") :: pyReprFields fs
  | .cons k v fs => ("'" ++ k ++ "': " ++ pyStr v) :: pyReprFields fs
end

/-- Python `repr(value)` for a JSON value (strings get quotes). -/
def pyRepr : Json → String
  | .str s => "'" ++ s ++ "'"
  | v => pyStr v

/-! ### Enumerations (`models/test_case_models.py`, `models/request_models.py`) -/

inductive Severity where
  | critical | major | minor | trivial
deriving DecidableEq

/-- The string value of a `Severity` member. -/
def Severity.value : Severity → String
  | .critical => "critical"
  | .major => "major"
  | .minor => "minor"
  | .trivial => "trivial"

/-- Python `Severity(value)` lookup on a string: `some` member or `none`
(a `ValueError` in the source). -/
def Severity.ofValue : String → Option Severity
  | "critical" => some .critical
  | "major" => some .major
  | "minor" => some .minor
  | "trivial" => some .trivial
  | _ => none

inductive ScenarioType where
  | happy_path | edge_case | negative | boundary | security | performance
deriving DecidableEq

def ScenarioType.value : ScenarioType → String
  | .happy_path => "happy_path"
  | .edge_case => "edge_case"
  | .negative => "negative"
  | .boundary => "boundary"
  | .security => "security"
  | .performance => "performance"

inductive Priority where
  | P0 | P1 | P2 | P3
deriving DecidableEq

def Priority.value : Priority → String
  | .P0 => "P0"
  | .P1 => "P1"
  | .P2 => "P2"
  | .P3 => "P3"

inductive TestFormat where
  | gherkin | plain_steps | pytest
deriving DecidableEq

def TestFormat.value : TestFormat → String
  | .gherkin => "gherkin"
  | .plain_steps => "plain_steps"
  | .pytest => "pytest"

/-! ### Data model -/

/-- Model of `TestStep` (pydantic model).  Field constraints
(`step_number ≥ 1`, `len(action) ≥ 3`, `len(expected_result) ≥ 3`) are
enforced by `mkTestStep` below, mirroring construction-time validation. -/
structure TestStep where
  step_number : Nat
  action : String
  input_data : Option String
  expected_result : String
deriving DecidableEq

/-- pydantic validation of `TestStep(...)`: `some` step or `none`
(a `ValidationError` in the source). -/
def mkTestStep (step_number : Nat) (action : String) (input_data : Option String)
    (expected_result : String) : Option TestStep :=
  if 1 ≤ step_number ∧ 3 ≤ action.length ∧ 3 ≤ expected_result.length then
    some ⟨step_number, action, input_data, expected_result⟩
  else
    none

/-- Model of `TestCase` (pydantic model).  `test_id` is uuid-generated in the
source; it is claim-irrelevant and carried as an opaque string. -/
structure TestCase where
  test_id : String
  title : String
  scenario_type : ScenarioType
  severity : Severity
  priority : String
  preconditions : List String
  steps : List TestStep
  tags : List String
  is_edge_case : Bool
  component : String
  gherkin : Option String
  pytest_code : Option String
deriving DecidableEq

/-- The `steps_sequential` field validator: renumber steps `1..n` in list
order (the source mutates `step_number` to `i+1` whenever it differs). -/
def renumberSteps (n : Nat) : List TestStep → List TestStep
  | [] => []
  | s :: ss => { s with step_number := n } :: renumberSteps (n + 1) ss

/-- pydantic validation of `TestCase(...)`: title length in `[5, 300]`,
at least one step, then the `steps_sequential` renumbering validator. -/
def mkTestCase (test_id title : String) (scenario_type : ScenarioType)
    (severity : Severity) (priority : String) (preconditions : List String)
    (steps : List TestStep) (tags : List String) (is_edge_case : Bool)
    (component : String) (gherkin pytest_code : Option String) : Option TestCase :=
  if 5 ≤ title.length ∧ title.length ≤ 300 ∧ 1 ≤ steps.length then
    some ⟨test_id, title, scenario_type, severity, priority, preconditions,
          renumberSteps 1 steps, tags, is_edge_case, component, gherkin, pytest_code⟩
  else
    none

/-- Model of `GenerateRequest` (`models/request_models.py`), the fields the core
reads.  Field-level request validation is out of scope: requests are
assumed already validated by the routing layer. -/
structure GenRequest where
  user_story : String
  acceptance_criteria : List String
  component_context : String
  priority : Priority
  target_format : TestFormat
  project_id : Option String
  task_id : Option String
deriving DecidableEq

/-- Model of `TestSuiteResponse` (pydantic model).  `suite_id` and `generated_at`
are uuid/clock-generated and omitted (claim-irrelevant).  `breakdown` is
a Python dict in insertion order, modelled as an association list. -/
structure TestSuiteResponse where
  user_story_summary : String
  component : String
  total_cases : Nat
  breakdown : List (String × Nat)
  test_cases : List TestCase
  format : String
  project_id : Option String
  task_id : Option String
deriving DecidableEq

/-! ### Deduplicator (`services/deduplicator.py`) -/

/-- One maximal run of word characters at a time (`re.findall(r'\b\w+\b', ·)`
over ASCII text: `\w` is alphanumeric or underscore). -/
def wordRunsAux : List Char → List Char → List String
  | [], acc => if acc.isEmpty then [] else [String.mk acc.reverse]
  | c :: cs, acc =>
    if c.isAlphanum || c == '_' then
      wordRunsAux cs (c :: acc)
    else if acc.isEmpty then
      wordRunsAux cs []
    else
      String.mk acc.reverse :: wordRunsAux cs []

/-- Model of `_tokenize`: lowercase word tokenization into a set.  The Python
`set` is modelled as a duplicate-free list (first-occurrence order); only
membership and cardinality are ever used. -/
def tokenize (text : String) : List String :=
  (wordRunsAux (pyLower text).toList []).dedup

/-- Model of `_steps_text`: concatenate all step actions. -/
def stepsText (tc : TestCase) : String :=
  pyJoin " " (tc.steps.map (fun s => s.action))

/-- Set intersection on duplicate-free lists. -/
def interL (a b : List String) : List String := a.filter (fun x => x ∈ b)

/-- Set union on duplicate-free lists. -/
def unionL (a b : List String) : List String := a ++ b.filter (fun x => x ∉ a)

/-- Model of `_jaccard_similarity` (source computes a float ratio; modelled
exactly in ℚ). -/
def jaccardSimilarity (a b : List String) : ℚ :=
  if a.isEmpty && b.isEmpty then 1
  else mkRat ((interL a b).length : Int) (unionL a b).length

/-- Token set of a case's concatenated step actions. -/
def caseTokens (tc : TestCase) : List String := tokenize (stepsText tc)

/-- Model of `_merge_preconditions(keeper, removed)`: append each precondition of
`removed` that is not in `keeper`'s precondition list.  The source
computes `existing = set(keeper.preconditions)` once, before the loop,
and never extends it, so repeats inside `removed.preconditions` are each
appended. -/
def mergePreconditions (keeper removed : TestCase) : TestCase :=
  { keeper with
    preconditions :=
      keeper.preconditions ++
        removed.preconditions.filter (fun p => p ∉ keeper.preconditions) }

/-- Inner loop of `deduplicate_test_cases` for the case at the current
outer index `c` against the later still-kept cases `rest` (in order).
Returns `(some c', rest')` when `c` survives the whole scan (with all its
precondition merges applied) and `(none, rest')` when some later case
with strictly more steps absorbed it (the source sets `keep[i] = False`
and `break`s, leaving the cases after the winner unscanned).  Cases `c`
wins against are dropped from `rest'` (the source marks `keep[j] = False`,
so they are skipped by every later iteration). -/
def scanCase (threshold : ℚ) (c : TestCase) : List TestCase → Option TestCase × List TestCase
  | [] => (some c, [])
  | d :: ds =>
    if c.scenario_type = d.scenario_type then
      if threshold ≤ jaccardSimilarity (caseTokens c) (caseTokens d) then
        if c.steps.length < d.steps.length then
          -- later case has strictly more steps: it wins, current case dies
          (none, mergePreconditions d c :: ds)
        else
          -- current case wins (ties retain the earlier case), scan continues
          scanCase threshold (mergePreconditions c d) ds
      else
        let res := scanCase threshold c ds
        (res.1, d :: res.2)
    else
      let res := scanCase threshold c ds
      (res.1, d :: res.2)

/-- Outer loop of `deduplicate_test_cases`: process cases left to right;
each iteration scans the head against the later surviving cases.  `fuel`
is the list length (each step consumes the head, and `scanCase` never
lengthens the tail, so the fuel is never exhausted before the list). -/
def dedupGo (threshold : ℚ) : Nat → List TestCase → List TestCase
  | _, [] => []
  | 0, l => l
  | fuel + 1, c :: rest =>
    match scanCase threshold c rest with
    | (some c', rest') => c' :: dedupGo threshold fuel rest'
    | (none, rest') => dedupGo threshold fuel rest'

/-- Model of `deduplicate_test_cases(cases, threshold=0.85)`. -/
def deduplicateTestCases (cases : List TestCase) (threshold : ℚ := mkRat 85 100) : List TestCase :=
  if cases.length ≤ 1 then cases
  else dedupGo threshold cases.length cases

/-! ### Output parser (`services/test_parser.py`) -/

/-- Model of `SEVERITY_DEFAULTS` (the module-level dict covers all six scenario
types, so the `.get(·, Severity.MINOR)` default is never taken). -/
def severityDefault : ScenarioType → Severity
  | .happy_path => .critical
  | .negative => .major
  | .edge_case => .major
  | .boundary => .minor
  | .security => .critical
  | .performance => .minor

/-- Placeholder for the uuid-generated `test_id` (claim-irrelevant). -/
def placeholderId : String := "TC-00000000"

/-- The direct alias table of `_normalize_scenario_type`. -/
def scenarioAlias : String → Option ScenarioType
  | "happy" => some .happy_path
  | "happy_path" => some .happy_path
  | "positive" => some .happy_path
  | "negative" => some .negative
  | "error" => some .negative
  | "failure" => some .negative
  | "invalid" => some .negative
  | "edge" => some .edge_case
  | "edge_case" => some .edge_case
  | "boundary" => some .boundary
  | "security" => some .security
  | "performance" => some .performance
  | _ => none

/-- Are all elements JSON strings?  Returns their payloads, or `none`
(Python `" ".join` raises `TypeError` on a non-string element). -/
def allStrings : JsonList → Option (List String)
  | .nil => some []
  | .cons (.str s) vs => (allStrings vs).map (fun ss => s :: ss)
  | .cons _ _ => none

/-- Model of `tags_text` of `_normalize_scenario_type`: `" ".join(tags_raw).lower()`
for a list (raising on non-string elements), `str(tags_raw).lower()`
otherwise. -/
def tagsTextOf : Json → Option String
  | .arr xs => (allStrings xs).map (fun ss => pyLower (pyJoin " " ss))
  | v => some (pyLower (pyStr v))

/-- Does `hint` contain any of the keywords as a substring? -/
def kwAny (hint : String) (kws : List String) : Bool :=
  kws.any (fun k => strContains hint k)

/-- Model of `_normalize_scenario_type`: alias table first, then keyword
heuristics over title + tags in fixed priority order, defaulting to
`happy_path`.  `none` models the uncaught `TypeError` when `tags` is a
list with a non-string element. -/
def normalizeScenarioType (raw : JsonFields) : Option ScenarioType :=
  let rawType :=
    pyReplaceChar (pyLower (pyStrip (pyStr ((jsonGet raw "scenario_type").getD (.str ""))))) ' ' '_'
  match scenarioAlias rawType with
  | some t => some t
  | none =>
    let titleText := pyLower (pyStr ((jsonGet raw "title").getD (.str "")))
    match tagsTextOf ((jsonGet raw "tags").getD (.arr .nil)) with
    | none => none
    | some tagsText =>
      let hint := titleText ++ " " ++ tagsText
      if kwAny hint ["edge", "boundary", "limit", "corner", "extreme"] then some .edge_case
      else if kwAny hint ["invalid", "error", "fail", "reject", "unauthorized"] then some .negative
      else if kwAny hint ["security", "xss", "csrf", "injection"] then some .security
      else if kwAny hint ["performance", "load", "latency", "stress"] then some .performance
      else some .happy_path

/-- Model of `Severity(raw.get("severity", ""))` under `try/except ValueError`:
a valid member string resolves; any other value — non-member strings,
numbers, bools, null, and also unhashable lists/dicts, whose lookup
`TypeError` Python's enum machinery converts into `ValueError` — raises
`ValueError`, which is caught and substituted with the per-scenario-type
default. -/
def parseSeverity (v : Json) (st : ScenarioType) : Severity :=
  match v with
  | .str s => (Severity.ofValue s).getD (severityDefault st)
  | _ => severityDefault st

/-- pydantic validation of a `str` field with a default for a missing
key: absent → default; a JSON string → itself; any present non-string →
`ValidationError` (pydantic v2 does not coerce numbers/bools/None to
`str`). -/
def pydStrD (v : Option Json) (dflt : String) : Option String :=
  match v with
  | none => some dflt
  | some (.str s) => some s
  | some _ => none

/-- pydantic validation of an `Optional[str]` field defaulting to `None`:
absent or null → `none`; a JSON string → `some`; anything else →
`ValidationError`. -/
def pydOptStr : Option Json → Option (Option String)
  | none => some none
  | some .null => some none
  | some (.str s) => some (some s)
  | some _ => none

/-- Python truthiness of a JSON value. -/
def truthy : Json → Bool
  | .null => false
  | .bool b => b
  | .num n => n != 0
  | .str s => !s.isEmpty
  | .arr xs => !xs.isEmpty
  | .obj fs => !fs.isEmpty

/-- pydantic v2 lax validation of a `bool` field: `True`/`False` as is;
ints 0/1; the usual boolean strings (case-insensitive); everything else
is a `ValidationError`. -/
def pydanticBool : Json → Option Bool
  | .bool b => some b
  | .num 0 => some false
  | .num 1 => some true
  | .str s =>
    let l := pyLower s
    if l ∈ ["true", "t", "yes", "y", "on", "1"] then some true
    else if l ∈ ["false", "f", "no", "n", "off", "0"] then some false
    else none
  | _ => none

/-- Model of `raw.get("is_edge_case", False) or scenario_type in (EDGE_CASE,
BOUNDARY)`: Python `or` yields the first operand when truthy, else the
second; the resulting value then passes through pydantic's `bool` field
validation. -/
def parseIsEdgeCase (v : Json) (st : ScenarioType) : Option Bool :=
  let orVal := if truthy v then v
               else .bool (decide (st = .edge_case ∨ st = .boundary))
  pydanticBool orVal

/-- The preconditions/tags coercion: a string wraps into a one-element
list; a list stringifies each element; any other shape becomes `[]`. -/
def parseStrList : Json → List String
  | .str s => [s]
  | .arr xs => xs.toList.map pyStr
  | _ => []

/-- Python iteration over the value of `raw.get("steps", [])`: a list
yields its elements, a string its characters, a dict its keys; numbers,
bools and null are not iterable (`TypeError`, case skipped). -/
def enumerateSteps : Json → Option (List Json)
  | .arr xs => some xs.toList
  | .str s => some (s.toList.map (fun c => .str (String.singleton c)))
  | .obj fs => some (fs.keys.map (fun k => .str k))
  | _ => none

/-- One iteration of the step loop in `_parse_single_case` at 0-based
index `j`: a dict pulls `action` (default `"Step {j+1}"`), `input_data`
and `expected_result` (default `"Result not specified"`); a non-dict is
coerced to `str(raw_step)` as the action.  The built `TestStep` then
passes construction-time validation. -/
def parseStep (j : Nat) : Json → Option TestStep
  | .obj fields => do
    let action ← pydStrD (jsonGet fields "action") ("Step " ++ toString (j + 1))
    let input_data ← pydOptStr (jsonGet fields "input_data")
    let expected ← pydStrD (jsonGet fields "expected_result") "Result not specified"
    mkTestStep (j + 1) action input_data expected
  | v => mkTestStep (j + 1) (pyStr v) none "Result not specified"

/-- The step loop of `_parse_single_case` over the enumerated raw steps,
`j` being the current 0-based index. -/
def parseSteps (j : Nat) : List Json → Option (List TestStep)
  | [] => some []
  | v :: vs => do
    let s ← parseStep j v
    let ss ← parseSteps (j + 1) vs
    pure (s :: ss)

/-- Model of `_parse_single_case(raw, request, index)`: `some` TestCase, or `none`
when any step of the construction raises (the caller counts the case as
malformed and skips it). -/
def parseSingleCase (raw : JsonFields) (req : GenRequest) (index : Nat) :
    Option TestCase := do
  let stepsJson ← enumerateSteps ((jsonGet raw "steps").getD (.arr .nil))
  let steps ← parseSteps 0 stepsJson
  let st ← normalizeScenarioType raw
  let sev := parseSeverity ((jsonGet raw "severity").getD (.str "")) st
  let pres := parseStrList ((jsonGet raw "preconditions").getD (.arr .nil))
  let tags := parseStrList ((jsonGet raw "tags").getD (.arr .nil))
  let iec ← parseIsEdgeCase ((jsonGet raw "is_edge_case").getD (.bool false)) st
  let title ← pydStrD (jsonGet raw "title") ("Test Case " ++ toString (index + 1))
  let gherkin ← pydOptStr (jsonGet raw "gherkin")
  let pytest_code ← pydOptStr (jsonGet raw "pytest_code")
  mkTestCase placeholderId title st sev req.priority.value pres steps tags iec
    req.component_context gherkin pytest_code

/-- The canned title and steps `_build_fallback_case` authors per
scenario type (the `if/elif/else` branches of the source). -/
def fallbackTitleSteps : ScenarioType → String × List TestStep
  | .negative =>
    ("Reject invalid input and return clear error",
     [⟨1, "Submit invalid or unauthorized input", none,
       "System rejects the request with a clear error message"⟩,
      ⟨2, "Check application state after rejection", none,
       "No unintended data or state change is observed"⟩])
  | .edge_case =>
    ("Handle boundary values without breaking flow",
     [⟨1, "Submit boundary or extreme input values", none,
       "System handles input gracefully without crashing"⟩,
      ⟨2, "Verify feedback for out-of-range conditions", none,
       "User receives deterministic and understandable validation feedback"⟩])
  | _ =>
    ("Complete primary user flow successfully",
     [⟨1, "Perform the primary action with valid input", none,
       "Operation succeeds and expected output is produced"⟩])

/-- Model of `_build_fallback_case(scenario_type, request)`.  The constructed
`TestCase(...)` passes pydantic validation (canned titles are 5–300
chars, canned steps non-empty and already numbered from 1). -/
def buildFallbackCase (st : ScenarioType) (req : GenRequest) : TestCase :=
  { test_id := placeholderId
    title := (fallbackTitleSteps st).1
    scenario_type := st
    severity := severityDefault st
    priority := req.priority.value
    preconditions := ["User is on " ++ req.component_context]
    steps := (fallbackTitleSteps st).2
    tags := [st.value, "fallback"]
    is_edge_case := decide (st = .edge_case ∨ st = .boundary)
    component := req.component_context
    gherkin := none
    pytest_code := none }

/-- The three mandatory scenario categories, in the source's order. -/
def requiredTypes : List ScenarioType := [.happy_path, .negative, .edge_case]

/-- The loop of `_ensure_required_coverage`: walk the required types,
appending a fallback case (and recording the type as present) for each
type not in the existing set. -/
def ensureCoverageGo (req : GenRequest) :
    List ScenarioType → List TestCase → List ScenarioType → Nat → List TestCase × Nat
  | [], cases, _, added => (cases, added)
  | t :: ts, cases, existing, added =>
    if t ∈ existing then ensureCoverageGo req ts cases existing added
    else ensureCoverageGo req ts (cases ++ [buildFallbackCase t req]) (existing ++ [t]) (added + 1)

/-- Model of `_ensure_required_coverage(parsed_cases, request)`. -/
def ensureRequiredCoverage (cases : List TestCase) (req : GenRequest) :
    List TestCase × Nat :=
  ensureCoverageGo req requiredTypes cases (cases.map (fun tc => tc.scenario_type)) 0

/-- Model of `_missing_required_types(parsed_cases)`. -/
def missingRequiredTypes (cases : List TestCase) : List ScenarioType :=
  requiredTypes.filter (fun t => t ∉ cases.map (fun tc => tc.scenario_type))

/-- The exceptions `parse` can let escape: the two strict-mode
`ValueError`s, and the pydantic `ValidationError` raised when
`TestSuiteResponse(...)` is handed a non-string `user_story_summary`. -/
inductive ParseError where
  | tooFewCases (got required : Nat)
  | missingTypes (missing : List ScenarioType)
  | validationError
deriving DecidableEq

/-- The message text of the strict-mode `ValueError`s (the pydantic
`ValidationError` message is library-generated and not modelled). -/
def errMessage : ParseError → String
  | .tooFewCases got required =>
    "Strict mode: generated only " ++ toString got ++
      " valid cases; minimum required is " ++ toString required ++ "."
  | .missingTypes missing =>
    "Strict mode: missing required scenario types: " ++
      pyJoin ", " (missing.map ScenarioType.value) ++ "."
  | .validationError => "validation error for TestSuiteResponse"

inductive ParseResult where
  | ok (suite : TestSuiteResponse)
  | error (e : ParseError)
deriving DecidableEq

/-- One step of the breakdown dict update
`breakdown[t] = breakdown.get(t, 0) + 1` (insertion-ordered dict). -/
def bumpCount : List (String × Nat) → String → List (String × Nat)
  | [], k => [(k, 1)]
  | (k', n) :: rest, k =>
    if k' == k then (k', n + 1) :: rest else (k', n) :: bumpCount rest k

/-- The breakdown loop of `parse`. -/
def computeBreakdown (cases : List TestCase) : List (String × Nat) :=
  cases.foldl (fun acc tc => bumpCount acc tc.scenario_type.value) []

/-- Model of `raw_data.get("user_story_summary", request.user_story[:100])`
followed by pydantic's validation of the `user_story_summary : str`
field: an absent key falls back to the story prefix; a present value
must be a JSON string, anything else raises `ValidationError`. -/
def summaryOf (raw : JsonFields) (req : GenRequest) : Option String :=
  match jsonGet raw "user_story_summary" with
  | none => some (pyTake req.user_story 100)
  | some (.str s) => some s
  | some _ => none

/-- Model of `raw_data.get("test_cases", [])`, coerced to `[]` when absent or not
a list. -/
def rawCasesOf (raw : JsonFields) : List Json :=
  match jsonGet raw "test_cases" with
  | some (.arr xs) => xs.toList
  | _ => []

/-- The per-case loop of `parse`: skip non-dict entries and entries whose
construction raises; keep the rest in order.  `i` is the enumerate
index. -/
def collectCases (req : GenRequest) : Nat → List Json → List TestCase
  | _, [] => []
  | i, v :: vs =>
    match v with
    | .obj fields =>
      match parseSingleCase fields req i with
      | some tc => tc :: collectCases req (i + 1) vs
      | none => collectCases req (i + 1) vs
    | _ => collectCases req (i + 1) vs

/-- Construction of the final `TestSuiteResponse` (breakdown, totals,
summary default), shared by the strict and non-strict paths. -/
def finalizeSuite (raw : JsonFields) (req : GenRequest)
    (cases : List TestCase) : ParseResult :=
  match summaryOf raw req with
  | none => .error .validationError
  | some summary =>
    .ok { user_story_summary := summary
          component := req.component_context
          total_cases := cases.length
          breakdown := computeBreakdown cases
          test_cases := cases
          format := req.target_format.value
          project_id := req.project_id
          task_id := req.task_id }

/-- The surviving cases of `parse` before the coverage stage: parse each
raw entry (skipping malformed ones), then deduplicate. -/
def survivorsOf (raw : JsonFields) (req : GenRequest) : List TestCase :=
  deduplicateTestCases (collectCases req 0 (rawCasesOf raw))

/-- Model of `TestCaseParser.parse(raw_data, request, strict_mode=False,
min_cases=3)`.  (`min_cases` is a non-negative int at every call site;
modelled as `Nat`.) -/
def parse (raw : JsonFields) (req : GenRequest)
    (strict_mode : Bool := false) (min_cases : Nat := 3) : ParseResult :=
  let survivors := survivorsOf raw req
  let missing := missingRequiredTypes survivors
  if strict_mode then
    let requiredCount := max min_cases 1
    if survivors.length < requiredCount then
      .error (.tooFewCases survivors.length requiredCount)
    else if !missing.isEmpty then
      .error (.missingTypes missing)
    else
      finalizeSuite raw req survivors
  else
    finalizeSuite raw req (ensureRequiredCoverage survivors req).1

/-! ### Gemini call chain (`services/gemini_chain.py`)

The network backend is an oracle: a call either yields response text or
raises an exception, whose `str(e)` drives the classification at lines
155–156 of the source. -/

inductive CallResult where
  | success (text : String)
  | failure (errorStr : String)
deriving DecidableEq

/-- Model of `is_rate_limit = "429" in error_str or "RESOURCE_EXHAUSTED" in error_str`. -/
def isRateLimitErr (e : String) : Bool :=
  strContains e "429" || strContains e "RESOURCE_EXHAUSTED"

/-- Model of `is_quota = "quota" in error_str.lower() or "billing" in error_str.lower()`. -/
def isQuotaErr (e : String) : Bool :=
  strContains (pyLower e) "quota" || strContains (pyLower e) "billing"

/-- Model of `"404" in error_str or "not found" in error_str.lower()`. -/
def isNotFoundErr (e : String) : Bool :=
  strContains e "404" || strContains (pyLower e) "not found"

/-- Outcome of the per-combination retry loop: either a successful
response text, or exhaustion; both carry the number of attempts
(backend calls) the combination consumed, exhaustion also the last
error seen on it (if any call was made). -/
inductive ComboOutcome where
  | success (text : String) (attemptsMade : Nat)
  | exhausted (attemptsMade : Nat) (lastError : Option String)
deriving DecidableEq

/-- The `for attempt in range(max_retries)` loop of `_call_gemini` for
one (key, model) combination.  `b attempt` is the backend's response to
that attempt.  `attempt` is the loop variable, `remaining` how many
iterations the range still holds (`remaining = maxRetries - attempt` at
every call), `made`/`lastErr` the attempts made and last error so far.
Backoff sleeps (`3·2^attempt` and `2^attempt` seconds) suspend but do
not change control flow and are not modelled. -/
def tryComboAux (b : Nat → CallResult) (maxRetries : Nat) :
    Nat → Nat → Nat → Option String → ComboOutcome
  | _, 0, made, lastErr => .exhausted made lastErr
  | attempt, remaining + 1, made, _ =>
    match b attempt with
    | .success t => .success t (made + 1)
    | .failure e =>
      if isRateLimitErr e && isQuotaErr e then
        -- quota exhausted for this key: break out to the next combo
        .exhausted (made + 1) (some e)
      else if isRateLimitErr e then
        -- transient rate limit: sleep and retry the same combo
        tryComboAux b maxRetries (attempt + 1) remaining (made + 1) (some e)
      else if isNotFoundErr e then
        -- model not available: break out to the next combo
        .exhausted (made + 1) (some e)
      else if attempt < maxRetries - 1 then
        -- other error with attempts left: sleep and retry
        tryComboAux b maxRetries (attempt + 1) remaining (made + 1) (some e)
      else
        .exhausted (made + 1) (some e)

/-- The whole retry loop for one combination. -/
def tryCombo (b : Nat → CallResult) (maxRetries : Nat) : ComboOutcome :=
  tryComboAux b maxRetries 0 maxRetries 0 none

/-- Model of `all_combos`: every (key, model) pair, keys outermost, in order. -/
def allCombos (keys models : List String) : List (String × String) :=
  keys.flatMap (fun k => models.map (fun m => (k, m)))

/-- Outcome of `_call_gemini`: a response text, or the final
`RuntimeError` carrying the key/model tally and the last error. -/
inductive ChainResult where
  | ok (text : String)
  | failed (keyCount modelCount : Nat) (lastError : Option String)
deriving DecidableEq

/-- The combo loop of `_call_gemini`.  Also returns the call trace: one
`(combo, attemptsMade)` entry per combination actually tried, in order. -/
def callGeminiGo (b : String × String → Nat → CallResult) (maxRetries : Nat)
    (keyCount modelCount : Nat) :
    List (String × String) → Option String → List ((String × String) × Nat) →
    ChainResult × List ((String × String) × Nat)
  | [], lastErr, trace => (.failed keyCount modelCount lastErr, trace)
  | c :: cs, lastErr, trace =>
    match tryCombo (b c) maxRetries with
    | .success t made => (.ok t, trace ++ [(c, made)])
    | .exhausted made comboErr =>
      callGeminiGo b maxRetries keyCount modelCount cs
        (match comboErr with
         | some e => some e
         | none => lastErr)
        (trace ++ [(c, made)])

/-- Model of `_call_gemini(prompt, max_retries=3)`: iterate every (key, model)
combination in order; return the first successful response; after all
combinations, raise with the `len(keys) × len(models)` tally and the
last error.  `b combo attempt` is the backend's response to the given
attempt on the given combination. -/
def callGemini (keys models : List String) (b : String × String → Nat → CallResult)
    (maxRetries : Nat := 3) : ChainResult × List ((String × String) × Nat) :=
  callGeminiGo b maxRetries keys.length models.length (allCombos keys models) none []

/-- A parsed top-level `null` is Python `None`, which the caller of
`_extract_json` cannot tell apart from the `None` returned on failure
(it only tests `parsed is None`), so the model collapses it to `none`. -/
def collapseNull : Option Json → Option Json
  | some .null => none
  | r => r

/-- The parse-attempt part of `_extract_json` on the fence-stripped
text: `json.loads` first (a success is returned at once — a parsed
`null` therefore comes back as Python `None` without trying the brace
fallback), then the substring between the first brace and the last. -/
def extractJsonText (jsonLoads : String → Option Json) (text : String) : Option Json :=
  match jsonLoads text with
  | none =>
    match text.toList.findIdx? (fun c => c == '{') with
    | none => none
    | some s =>
      match text.toList.reverse.findIdx? (fun c => c == '}') with
      | none => none
      | some rIdx =>
        -- Python: end = text.rfind("}") + 1 = length - rIdx; slice text[s:end]
        let e := text.toList.length - rIdx
        if s < e then
          collapseNull (jsonLoads (String.mk ((text.toList.drop s).take (e - s))))
        else none
  | r => collapseNull r

/-- Model of `_extract_json(raw)`.  `jsonLoads` is the Python-stdlib `json.loads`
as an oracle: `some` parsed value or `none` for `JSONDecodeError`.  (As
in the source, a parse of a non-object yields a non-dict return value;
`Json` covers that; a parsed top-level `null` is indistinguishable from
failure at the caller, `collapseNull`.) -/
def extractJson (jsonLoads : String → Option Json) (raw : String) : Option Json :=
  let text := pyStrip raw
  let text :=
    if startsWithL "```".toList text.toList then
      pyJoin "\n" ((pySplitNL text.toList).drop 1).dropLast
    else text
  extractJsonText jsonLoads text

/-- Model of `_build_correction_prompt(malformed_output)`: the fix-this-JSON
prompt embedding the broken output truncated to 3000 characters. -/
def buildCorrectionPrompt (malformed : String) : String :=
  "The following output was supposed to be valid JSON\n" ++
  "matching a test case schema, but it has syntax errors.\n\n" ++
  "Fix it and return ONLY valid JSON. Do not explain.\n\n" ++
  "BROKEN OUTPUT:\n" ++ pyTake malformed 3000 ++
  "\n\nReturn the corrected JSON:"

/-- Does the JSON list hold the given string as an element?  (Python
`==` between a string and a non-string element is `False`.) -/
def jsonListHasStr : JsonList → String → Bool
  | .nil, _ => false
  | .cons (.str s) tl, k => s == k || jsonListHasStr tl k
  | .cons _ tl, k => jsonListHasStr tl k

/-- Model of Python's `"test_cases" in parsed`, the first test of
`_fill_coverage_gaps`: key membership for a dict, element membership for
a list, substring for a string; a number or boolean is not iterable, so
the test raises `TypeError` (`none`; the interpreter's exact message
text is not modelled). -/
def memTestCases : Json → Option Bool
  | .obj fs => some (fs.keys.contains "test_cases")
  | .arr xs => some (jsonListHasStr xs "test_cases")
  | .str s => some (strContains s "test_cases")
  | _ => none

/-- Model of `_fill_coverage_gaps(parsed, request)` around its backend turn.
For a dict holding a `"test_cases"` key, the counting loop, the optional
extra generation call and the extend are the oracle `gapFillTurn` (an
`Except`, since that part can itself raise); the other shapes are
decided by the source's first lines: a failing membership test raises
`TypeError`; membership `False` returns the value unchanged; membership
`True` on a list or string raises `TypeError` at the
`parsed["test_cases"]` subscript. -/
def fillCoverageGaps (gapFillTurn : JsonFields → Except String Json)
    (parsed : Json) : Except String Json :=
  match memTestCases parsed with
  | none => .error "TypeError: argument is not iterable"
  | some false => .ok parsed
  | some true =>
    match parsed with
    | .obj fs => gapFillTurn fs
    | _ => .error "TypeError: non-integer subscript"

/-- Outcome of `generate`: a parsed object, the `ValueError` raised
after two unparseable turns, or an exception escaping uncaught from the
gap-fill stage. -/
inductive GenResult where
  | ok (parsed : Json)
  | invalidOutput (message : String)
  | uncaught (message : String)

/-- Projection: did `generate` return a parsed object? -/
def GenResult.isOkGen : GenResult → Bool
  | .ok _ => true
  | _ => false

/-- Model of `GeminiChain.generate`: turn 1 through the retry matrix, JSON
extraction, one self-correction turn on failure, then the unconditional
coverage-gap-fill stage (`fillCoverageGaps`).  `backend n p` is the raw
text the n-th `_call_gemini` invocation returns for prompt `p` (the
retry matrix below it is `callGemini`); `gapFillTurn` is the
dict-with-test-cases part of `_fill_coverage_gaps` as an oracle.  An
exception out of the gap-fill stage escapes `generate` uncaught.  The
second component is the list of prompts handed to `_call_gemini`, in
order. -/
def generate (jsonLoads : String → Option Json) (backend : Nat → String → String)
    (gapFillTurn : JsonFields → Except String Json) (prompt : String) :
    GenResult × List String :=
  let raw1 := backend 0 prompt
  match extractJson jsonLoads raw1 with
  | some parsed =>
    (match fillCoverageGaps gapFillTurn parsed with
     | .ok v => .ok v
     | .error e => .uncaught e,
     [prompt])
  | none =>
    let correction := buildCorrectionPrompt raw1
    let raw2 := backend 1 correction
    match extractJson jsonLoads raw2 with
    | some parsed =>
      (match fillCoverageGaps gapFillTurn parsed with
       | .ok v => .ok v
       | .error e => .uncaught e,
       [prompt, correction])
    | none =>
      (.invalidOutput
        ("Gemini failed to produce valid JSON after 2 turns. Raw output: " ++
          pyTake raw2 500),
       [prompt, correction])

/-! ### GitHub Models rate limiter (`services/github_models_chain.py`) -/

/-- Constructor-time state of the secondary backend's `RateLimiter`:
`self.rpm = max(rpm, 1)`, `self.rpd = max(rpd, 1)`. -/
structure GHRateLimiter where
  rpm : Nat
  rpd : Nat
deriving DecidableEq

/-- Model of `RateLimiter(rpm, rpd).__init__`. -/
def mkRateLimiter (rpm rpd : Nat) : GHRateLimiter :=
  ⟨max rpm 1, max rpd 1⟩

/-- Model of `self.interval = 60.0 / self.rpm`. -/
def GHRateLimiter.interval (rl : GHRateLimiter) : ℚ := 60 / (rl.rpm : ℚ)

/-- The limiter's mutable state: the rolling-day window, the day's
request count, and the last-call monotonic timestamp. -/
structure RLState where
  windowDay : Int
  requestsToday : Nat
  lastRequestTime : ℚ
deriving DecidableEq

/-- Outcome of `acquire()`: success carries the new state and the time
cooperatively slept; the daily-cap `RuntimeError` carries the state as
mutated before the raise (the day-roll assignments persist). -/
inductive AcquireResult where
  | ok (st : RLState) (waited : ℚ)
  | quotaExceeded (message : String) (st : RLState)
deriving DecidableEq

/-- Model of `RateLimiter.acquire()` of the GitHub Models chain.  `today` is
`date.today()` (as an ordinal), `now` is `time.monotonic()`; the sleep
is modelled as exact, so the recorded last-request time is `now + wait`. -/
def acquire (rl : GHRateLimiter) (today : Int) (now : ℚ) (st : RLState) : AcquireResult :=
  let st :=
    if today ≠ st.windowDay then { st with windowDay := today, requestsToday := 0 }
    else st
  if rl.rpd ≤ st.requestsToday then
    .quotaExceeded
      ("GitHub Models daily request limit reached (" ++ toString rl.rpd ++
        " requests/day).") st
  else
    let elapsed := now - st.lastRequestTime
    let wait := if elapsed < rl.interval then rl.interval - elapsed else 0
    .ok { st with lastRequestTime := now + wait, requestsToday := st.requestsToday + 1 }
      wait

/-! ### Projections and concrete data used by the theorems below -/

/-- Did `parse` return a suite? -/
def ParseResult.isOk : ParseResult → Bool
  | .ok _ => true
  | .error _ => false

/-- The suite of a successful parse, or a default. -/
def ParseResult.suiteD (r : ParseResult) (dflt : TestSuiteResponse) : TestSuiteResponse :=
  match r with
  | .ok s => s
  | .error _ => dflt

/-- The attempts a combo outcome consumed. -/
def ComboOutcome.attemptsMade : ComboOutcome → Nat
  | .success _ n => n
  | .exhausted n _ => n

/-- A concrete request used in concrete evaluations. -/
def demoRequest : GenRequest :=
  ⟨"As a user, I want to log in so that I can access my dashboard.", [],
   "Login Page", .P1, .gherkin, none, none⟩

/-- A well-formed raw happy-path case. -/
def demoHappyCase : Json :=
  .obj (.ofList
    [("title", .str "Valid login works"), ("scenario_type", .str "happy_path"),
     ("steps", .arr (.ofList
       [.obj (.ofList [("action", .str "Enter valid credentials"),
                       ("expected_result", .str "Dashboard shown")])]))])

/-- A second, dissimilar well-formed raw happy-path case. -/
def demoHappyCase2 : Json :=
  .obj (.ofList
    [("title", .str "Logout works fine"), ("scenario_type", .str "happy_path"),
     ("steps", .arr (.ofList
       [.obj (.ofList [("action", .str "Press the logout button"),
                       ("expected_result", .str "Session ends")])]))])

/-- A raw payload with one valid case. -/
def demoRaw : JsonFields := .ofList [("test_cases", .arr (.ofList [demoHappyCase]))]

/-- A raw payload yielding exactly two valid, dissimilar cases. -/
def strictRaw : JsonFields :=
  .ofList [("test_cases", .arr (.ofList [demoHappyCase, demoHappyCase2]))]

/-- A default suite for the `suiteD` projection. -/
def emptySuite : TestSuiteResponse := ⟨"", "", 0, [], [], "", none, none⟩

/-- The suite the demo non-strict parse returns. -/
def demoSuite : TestSuiteResponse :=
  (parse demoRaw demoRequest false 3).suiteD emptySuite

/-- A default case for `getD` projections. -/
def emptyCase : TestCase :=
  ⟨"", "Empty case", .happy_path, .critical, "P1", [], [], [], false, "", none, none⟩

/-- The first case of the demo suite. -/
def demoFirstCase : TestCase := demoSuite.test_cases.getD 0 emptyCase

/-- A hand-built case for deduplication examples. -/
def demoCase (title : String) (st : ScenarioType) (actions : List String)
    (pres : List String) : TestCase :=
  { test_id := "t", title := title, scenario_type := st, severity := .major,
    priority := "P1", preconditions := pres,
    steps := actions.map (fun a => ⟨1, a, none, "Result not specified"⟩),
    tags := [], is_edge_case := false, component := "General",
    gherkin := none, pytest_code := none }

/-- Pair with Jaccard similarity exactly 17/20 = 0.85 (17 shared tokens,
3 extra on one side). -/
def sim85A : TestCase :=
  demoCase "Case Alpha eightyfive" .happy_path
    ["a1 a2 a3 a4 a5 a6 a7 a8 a9 a10 a11 a12 a13 a14 a15 a16 a17 b1 b2 b3"] []

def sim85B : TestCase :=
  demoCase "Case Beta eightyfive" .happy_path
    ["a1 a2 a3 a4 a5 a6 a7 a8 a9 a10 a11 a12 a13 a14 a15 a16 a17"] []

/-- Pair with Jaccard similarity exactly 21/25 = 0.84 (21 shared tokens,
2 extra on each side). -/
def sim84A : TestCase :=
  demoCase "Case Alpha eightyfour" .happy_path
    ["a1 a2 a3 a4 a5 a6 a7 a8 a9 a10 a11 a12 a13 a14 a15 a16 a17 a18 a19 a20 a21 b1 b2"] []

def sim84B : TestCase :=
  demoCase "Case Beta eightyfour" .happy_path
    ["a1 a2 a3 a4 a5 a6 a7 a8 a9 a10 a11 a12 a13 a14 a15 a16 a17 a18 a19 a20 a21 c1 c2"] []

/-- The spec's precondition-merge example: A (2 steps, preconditions
`["x"]`) against B (3 steps, preconditions `["x", "y"]`), identical
step-action token sets. -/
def exPreA : TestCase :=
  demoCase "Case Alpha merge" .happy_path ["click submit", "wait load"] ["x"]

def exPreB : TestCase :=
  demoCase "Case Beta merge" .happy_path ["click", "submit wait", "load"] ["x", "y"]

/-- The duplicated-precondition pair: the discarded case (1 step) holds
`["y", "y"]`, the retained case (2 steps) holds `["x"]`. -/
def dupPreA : TestCase :=
  demoCase "Case Alpha duplicated" .happy_path ["click submit"] ["y", "y"]

def dupPreB : TestCase :=
  demoCase "Case Beta duplicated" .happy_path ["click", "submit"] ["x"]

/-- An error string carrying both the rate-limit and the quota/billing
signals. -/
def quotaErrText : String :=
  "429 RESOURCE_EXHAUSTED: quota exceeded for billing plan"

/-- A backend where credential `key1` hits the quota error on every
model and attempt, and every other credential succeeds immediately. -/
def behavC6 : String × String → Nat → CallResult := fun c _ =>
  if c.1 = "key1" then .failure quotaErrText else .success "ok-text"

/-- A `json.loads` oracle that parses only the empty JSON object. -/
def demoJsonLoads : String → Option Json := fun s =>
  if s = "\x7b\x7d" then some (.obj .nil) else none

/-- A backend whose first call returns unparseable text and whose second
call returns a fenced empty JSON object. -/
def demoBackend : Nat → String → String := fun n _ =>
  if n = 0 then "not json at all" else "```json\n\x7b\x7d\n```"

/-- A gap-fill oracle that issues no extra call and leaves the object
unchanged. -/
def demoGapFillTurn : JsonFields → Except String Json := fun fs => .ok (.obj fs)

/-- A `json.loads` oracle that parses only the literal `5`. -/
def numJsonLoads : String → Option Json := fun s =>
  if s = "5" then some (.num 5) else none

/-- A backend that answers `"5"` to every call. -/
def numBackend : Nat → String → String := fun _ _ => "5"

/-- A raw case exercising step coercion: a bare-string step, a step dict
missing `action`, and a step dict missing `expected_result`. -/
def stepsDemoRaw : JsonFields :=
  .ofList
    [("title", .str "Steps demo case"),
     ("steps", .arr (.ofList
       [.str "Do the first thing",
        .obj (.ofList [("expected_result", .str "It works")]),
        .obj (.ofList [("action", .str "Another action")])]))]

/-- The case `stepsDemoRaw` parses to. -/
def stepsDemoCase : TestCase :=
  (parseSingleCase stepsDemoRaw demoRequest 0).getD emptyCase

/-- A test case with its precondition list cleared.  Precondition merges
are the only mutation deduplication performs, so every other field of a
case is captured by its core. -/
def caseCore (tc : TestCase) : TestCase := { tc with preconditions := [] }

/-- The structural invariant every case in a returned suite satisfies. -/
def validCase (tc : TestCase) : Prop :=
  tc.steps ≠ [] ∧ 5 ≤ tc.title.length ∧ tc.title.length ≤ 300 ∧
    ∀ s ∈ tc.steps, 3 ≤ s.action.length ∧ 3 ≤ s.expected_result.length

instance (tc : TestCase) : Decidable (validCase tc) := by
  unfold validCase; infer_instance

/-- Projection: did `acquire` succeed? -/
def AcquireResult.isOkAcq : AcquireResult → Bool
  | .ok _ _ => true
  | .quotaExceeded _ _ => false

/-- Projection: the request count recorded in the resulting state. -/
def AcquireResult.countAcq : AcquireResult → Nat
  | .ok st _ => st.requestsToday
  | .quotaExceeded _ st => st.requestsToday

/-! ### Helper lemmas: substrings and joins -/

lemma startsWithL_self_append (n t : List Char) : startsWithL n (n ++ t) = true := by
  induction n with
  | nil => rfl
  | cons c cs ih => simp [startsWithL, ih]

lemma containsSegL_of_startsWithL (n h : List Char) (hs : startsWithL n h = true) :
    containsSegL n h = true := by
  cases h with
  | nil =>
    cases n with
    | nil => rfl
    | cons c cs => simp [startsWithL] at hs
  | cons c cs => simp [containsSegL, hs]

lemma containsSegL_append_left (n pre h : List Char)
    (hc : containsSegL n h = true) : containsSegL n (pre ++ h) = true := by
  induction pre with
  | nil => simpa using hc
  | cons c cs ih => simp [containsSegL, ih]

lemma containsSegL_embed (n pre post : List Char) :
    containsSegL n (pre ++ (n ++ post)) = true :=
  containsSegL_append_left _ _ _
    (containsSegL_of_startsWithL _ _ (startsWithL_self_append _ _))

lemma strContains_of_decomp (hay needle a b : String) (h : hay = a ++ needle ++ b) :
    strContains hay needle = true := by
  subst h
  unfold strContains
  have hl : (a ++ needle ++ b).toList = a.toList ++ (needle.toList ++ b.toList) := by
    simp [String.toList]
  rw [hl]
  exact containsSegL_embed _ _ _

lemma pyJoin_decomp (sep x : String) :
    ∀ parts : List String, x ∈ parts →
      ∃ a b : String, pyJoin sep parts = a ++ x ++ b := by
  intro parts
  induction parts with
  | nil => intro hx; cases hx
  | cons p ps ih =>
    intro hx
    rcases List.mem_cons.mp hx with h | h
    · subst h
      cases ps with
      | nil => exact ⟨"", "", by simp [pyJoin]⟩
      | cons q qs =>
        exact ⟨"", sep ++ pyJoin sep (q :: qs), by
          show x ++ sep ++ pyJoin sep (q :: qs) = "" ++ x ++ (sep ++ pyJoin sep (q :: qs))
          simp [String.append_assoc]⟩
    · cases ps with
      | nil => cases h
      | cons q qs =>
        obtain ⟨a, b, hab⟩ := ih h
        refine ⟨p ++ sep ++ a, b, ?_⟩
        show p ++ sep ++ pyJoin sep (q :: qs) = p ++ sep ++ a ++ x ++ b
        rw [hab]
        simp only [String.append_assoc]

/-- The function `pyTake` yields at most the requested number of characters. -/
lemma pyTake_length_le (s : String) (n : Nat) : (pyTake s n).length ≤ n := by
  show (s.data.take n).length ≤ n
  exact le_trans (Nat.le_of_eq (List.length_take n s.data)) (Nat.min_le_left _ _)

/-! ### Helper lemmas: the deduplicator -/

lemma caseCore_mergePreconditions (k r : TestCase) :
    caseCore (mergePreconditions k r) = caseCore k := rfl

lemma scanCase_fst_core (th : ℚ) :
    ∀ (l : List TestCase) (c c' : TestCase),
      (scanCase th c l).1 = some c' → caseCore c' = caseCore c := by
  intro l
  induction l with
  | nil =>
    intro c c' h
    simp only [scanCase, Option.some.injEq] at h
    rw [← h]
  | cons d ds ih =>
    intro c c' h
    by_cases hty : c.scenario_type = d.scenario_type
    · by_cases hsim : th ≤ jaccardSimilarity (caseTokens c) (caseTokens d)
      · by_cases hst : c.steps.length < d.steps.length
        · simp [scanCase, hty, hsim, hst] at h
        · simp only [scanCase, if_pos hty, if_pos hsim, if_neg hst] at h
          exact (ih _ c' h).trans (caseCore_mergePreconditions c d)
      · simp only [scanCase, if_pos hty, if_neg hsim] at h
        exact ih _ _ h
    · simp only [scanCase, if_neg hty] at h
      exact ih _ _ h

lemma scanCase_snd_core_sublist (th : ℚ) :
    ∀ (l : List TestCase) (c : TestCase),
      ((scanCase th c l).2.map caseCore).Sublist (l.map caseCore) := by
  intro l
  induction l with
  | nil => intro c; simp [scanCase]
  | cons d ds ih =>
    intro c
    by_cases hty : c.scenario_type = d.scenario_type
    · by_cases hsim : th ≤ jaccardSimilarity (caseTokens c) (caseTokens d)
      · by_cases hst : c.steps.length < d.steps.length
        · simp only [scanCase, if_pos hty, if_pos hsim, if_pos hst, List.map_cons,
            caseCore_mergePreconditions]
          exact List.Sublist.refl _
        · simp only [scanCase, if_pos hty, if_pos hsim, if_neg hst]
          exact (ih (mergePreconditions c d)).trans ((List.Sublist.refl _).cons _)
      · simp only [scanCase, if_pos hty, if_neg hsim, List.map_cons]
        exact (ih c).cons₂ _
    · simp only [scanCase, if_neg hty, List.map_cons]
      exact (ih c).cons₂ _

lemma dedupGo_core_sublist (th : ℚ) :
    ∀ (fuel : Nat) (l : List TestCase),
      ((dedupGo th fuel l).map caseCore).Sublist (l.map caseCore) := by
  intro fuel
  induction fuel with
  | zero => intro l; cases l <;> simp [dedupGo]
  | succ fuel ih =>
    intro l
    cases l with
    | nil => simp [dedupGo]
    | cons c rest =>
      rcases hsc : scanCase th c rest with ⟨r, rest'⟩
      have hrest' : (rest'.map caseCore).Sublist (rest.map caseCore) := by
        have := scanCase_snd_core_sublist th rest c
        rw [hsc] at this
        exact this
      cases r with
      | some c' =>
        have hc' : caseCore c' = caseCore c := by
          have := scanCase_fst_core th rest c c'
          rw [hsc] at this
          exact this rfl
        simp only [dedupGo, hsc, List.map_cons, hc']
        exact ((ih rest').trans hrest').cons₂ _
      | none =>
        simp only [dedupGo, hsc]
        exact ((ih rest').trans hrest').cons _

lemma deduplicate_core_sublist (cases : List TestCase) (th : ℚ) :
    ((deduplicateTestCases cases th).map caseCore).Sublist (cases.map caseCore) := by
  unfold deduplicateTestCases
  split
  · exact List.Sublist.refl _
  · exact dedupGo_core_sublist th cases.length cases

/-- Every case surviving deduplication is one of the input cases up to
its precondition list. -/
lemma mem_deduplicate_core (cases : List TestCase) (th : ℚ) (tc : TestCase)
    (h : tc ∈ deduplicateTestCases cases th) :
    ∃ tc₀ ∈ cases, caseCore tc = caseCore tc₀ := by
  have h1 : caseCore tc ∈ (deduplicateTestCases cases th).map caseCore :=
    List.mem_map_of_mem _ h
  have h2 := (deduplicate_core_sublist cases th).subset h1
  obtain ⟨tc₀, htc₀, he⟩ := List.mem_map.mp h2
  exact ⟨tc₀, htc₀, he.symm⟩

/-- Full behaviour of deduplication on a two-element list. -/
lemma deduplicate_pair (a b : TestCase) (th : ℚ) :
    deduplicateTestCases [a, b] th =
      if a.scenario_type = b.scenario_type ∧
          th ≤ jaccardSimilarity (caseTokens a) (caseTokens b) then
        (if a.steps.length < b.steps.length then [mergePreconditions b a]
         else [mergePreconditions a b])
      else [a, b] := by
  by_cases hty : a.scenario_type = b.scenario_type
  · by_cases hsim : th ≤ jaccardSimilarity (caseTokens a) (caseTokens b)
    · by_cases hst : a.steps.length < b.steps.length
      · simp [deduplicateTestCases, dedupGo, scanCase, hty, hsim, hst]
      · simp [deduplicateTestCases, dedupGo, scanCase, hty, hsim, hst]
    · simp [deduplicateTestCases, dedupGo, scanCase, hty, hsim]
  · simp [deduplicateTestCases, dedupGo, scanCase, hty]

/-! ### Helper lemmas: the parser -/

/-- The coverage loop appends exactly one fallback case per mandatory
category that is absent, in the required order. -/
lemma ensureCoverageGo_eq (req : GenRequest) :
    ∀ (ts : List ScenarioType) (cs : List TestCase) (E : List ScenarioType) (n : Nat),
      ts.Nodup →
      (ensureCoverageGo req ts cs E n).1 =
        cs ++ (ts.filter (fun t => t ∉ E)).map (fun t => buildFallbackCase t req) := by
  intro ts
  induction ts with
  | nil => intro cs E n _; simp [ensureCoverageGo]
  | cons t ts' ih =>
    intro cs E n hnd
    obtain ⟨htn, hnd'⟩ := List.nodup_cons.mp hnd
    by_cases ht : t ∈ E
    · rw [show ensureCoverageGo req (t :: ts') cs E n = ensureCoverageGo req ts' cs E n
          from by simp [ensureCoverageGo, ht]]
      rw [ih cs E n hnd']
      simp [List.filter_cons, ht]
    · rw [show ensureCoverageGo req (t :: ts') cs E n =
            ensureCoverageGo req ts' (cs ++ [buildFallbackCase t req]) (E ++ [t]) (n + 1)
          from by simp [ensureCoverageGo, ht]]
      rw [ih _ _ _ hnd']
      have hfilter : ts'.filter (fun x => x ∉ E ++ [t]) = ts'.filter (fun x => x ∉ E) := by
        apply List.filter_congr
        intro x hx
        have hxt : x ≠ t := fun he => htn (he ▸ hx)
        simp [List.mem_append, hxt]
      rw [hfilter]
      simp [List.filter_cons, ht, List.append_assoc]

lemma ensureRequiredCoverage_eq (cases : List TestCase) (req : GenRequest) :
    (ensureRequiredCoverage cases req).1 =
      cases ++ (requiredTypes.filter
        (fun t => t ∉ cases.map (fun tc => tc.scenario_type))).map
          (fun t => buildFallbackCase t req) := by
  apply ensureCoverageGo_eq
  decide

lemma validCase_of_core (a b : TestCase) (h : caseCore a = caseCore b)
    (hb : validCase b) : validCase a := by
  have ht : a.title = b.title := by
    have := congrArg TestCase.title h
    simpa [caseCore] using this
  have hs : a.steps = b.steps := by
    have := congrArg TestCase.steps h
    simpa [caseCore] using this
  unfold validCase at hb ⊢
  rw [ht, hs]
  exact hb

lemma mkTestStep_some (n : Nat) (act : String) (inp : Option String) (exp : String)
    (s : TestStep) (h : mkTestStep n act inp exp = some s) :
    s = ⟨n, act, inp, exp⟩ ∧ 1 ≤ n ∧ 3 ≤ act.length ∧ 3 ≤ exp.length := by
  unfold mkTestStep at h
  split at h
  · rename_i hcond
    exact ⟨(Option.some.injEq _ _ ▸ h).symm, hcond.1, hcond.2.1, hcond.2.2⟩
  · cases h

lemma parseStep_some (j : Nat) (v : Json) (s : TestStep)
    (h : parseStep j v = some s) :
    s.step_number = j + 1 ∧ 3 ≤ s.action.length ∧ 3 ≤ s.expected_result.length := by
  cases v with
  | obj fields =>
    simp only [parseStep, Option.bind_eq_bind, Option.bind_eq_some] at h
    obtain ⟨act, hact, inp, hinp, exp, hexp, hmk⟩ := h
    obtain ⟨hse, _, ha, he⟩ := mkTestStep_some _ _ _ _ _ hmk
    subst hse
    exact ⟨rfl, ha, he⟩
  | null =>
    obtain ⟨hse, _, ha, he⟩ := mkTestStep_some _ _ _ _ _ h
    subst hse; exact ⟨rfl, ha, he⟩
  | bool b =>
    obtain ⟨hse, _, ha, he⟩ := mkTestStep_some _ _ _ _ _ h
    subst hse; exact ⟨rfl, ha, he⟩
  | num n =>
    obtain ⟨hse, _, ha, he⟩ := mkTestStep_some _ _ _ _ _ h
    subst hse; exact ⟨rfl, ha, he⟩
  | str s' =>
    obtain ⟨hse, _, ha, he⟩ := mkTestStep_some _ _ _ _ _ h
    subst hse; exact ⟨rfl, ha, he⟩
  | arr xs =>
    obtain ⟨hse, _, ha, he⟩ := mkTestStep_some _ _ _ _ _ h
    subst hse; exact ⟨rfl, ha, he⟩

lemma parseSteps_spec :
    ∀ (l : List Json) (j : Nat) (ss : List TestStep), parseSteps j l = some ss →
      ss.length = l.length ∧
        ∀ i (hi : i < l.length) (hi' : i < ss.length),
          parseStep (j + i) (l.get ⟨i, hi⟩) = some (ss.get ⟨i, hi'⟩) := by
  intro l
  induction l with
  | nil =>
    intro j ss h
    simp only [parseSteps, Option.some.injEq] at h
    subst h
    exact ⟨rfl, fun i hi => absurd hi (Nat.not_lt_zero i)⟩
  | cons v vs ih =>
    intro j ss h
    simp only [parseSteps, Option.pure_def, Option.bind_eq_bind, Option.bind_eq_some,
      Option.some.injEq] at h
    obtain ⟨s, hs, ss', hss', hcons⟩ := h
    subst hcons
    obtain ⟨hlen, hidx⟩ := ih (j + 1) ss' hss'
    refine ⟨by simp [hlen], ?_⟩
    intro i hi hi'
    cases i with
    | zero => simpa using hs
    | succ k =>
      have hk : k < vs.length := by simpa using hi
      have hk' : k < ss'.length := by simpa using hi'
      have := hidx k hk hk'
      have harith : j + (k + 1) = (j + 1) + k := by omega
      rw [harith]
      simpa using this

lemma renumberSteps_id :
    ∀ (ss : List TestStep) (n : Nat),
      (∀ i (hi : i < ss.length), (ss.get ⟨i, hi⟩).step_number = n + i) →
      renumberSteps n ss = ss := by
  intro ss
  induction ss with
  | nil => intro n _; rfl
  | cons s ss' ih =>
    intro n h
    have h0 : s.step_number = n := by simpa using h 0 (Nat.succ_pos _)
    have hhead : { s with step_number := n } = s := by
      cases s
      simp_all
    have htail : renumberSteps (n + 1) ss' = ss' := by
      apply ih
      intro i hi
      have := h (i + 1) (Nat.succ_lt_succ hi)
      have harith : n + (i + 1) = (n + 1) + i := by omega
      rw [harith] at this
      simpa using this
    simp only [renumberSteps, hhead, htail]

lemma renumberSteps_mem :
    ∀ (ss : List TestStep) (n : Nat) (s' : TestStep), s' ∈ renumberSteps n ss →
      ∃ s ∈ ss, s'.action = s.action ∧ s'.expected_result = s.expected_result := by
  intro ss
  induction ss with
  | nil => intro n s' h; cases h
  | cons s rest ih =>
    intro n s' h
    rcases List.mem_cons.mp h with h | h
    · exact ⟨s, List.mem_cons_self _ _, by rw [h], by rw [h]⟩
    · obtain ⟨s₀, hs₀, ha, he⟩ := ih (n + 1) s' h
      exact ⟨s₀, List.mem_cons_of_mem _ hs₀, ha, he⟩

lemma renumberSteps_length (n : Nat) (ss : List TestStep) :
    (renumberSteps n ss).length = ss.length := by
  induction ss generalizing n with
  | nil => rfl
  | cons s rest ih => simp [renumberSteps, ih]

lemma mkTestCase_some (tid title : String) (st : ScenarioType) (sev : Severity)
    (prio : String) (pres : List String) (steps : List TestStep) (tags : List String)
    (iec : Bool) (comp : String) (gh pc : Option String) (tc : TestCase)
    (h : mkTestCase tid title st sev prio pres steps tags iec comp gh pc = some tc) :
    tc = ⟨tid, title, st, sev, prio, pres, renumberSteps 1 steps, tags, iec, comp, gh, pc⟩ ∧
      5 ≤ title.length ∧ title.length ≤ 300 ∧ 1 ≤ steps.length := by
  unfold mkTestCase at h
  split at h
  · rename_i hcond
    exact ⟨(Option.some.injEq _ _ ▸ h).symm, hcond.1, hcond.2.1, hcond.2.2⟩
  · cases h


lemma buildFallbackCase_valid (t : ScenarioType) (req : GenRequest) :
    validCase (buildFallbackCase t req) := by
  have hsteps : (buildFallbackCase t req).steps = (fallbackTitleSteps t).2 := rfl
  have htitle : (buildFallbackCase t req).title = (fallbackTitleSteps t).1 := rfl
  unfold validCase
  rw [hsteps, htitle]
  cases t <;> decide

lemma parseSingleCase_valid (raw : JsonFields) (req : GenRequest) (idx : Nat)
    (tc : TestCase) (h : parseSingleCase raw req idx = some tc) : validCase tc := by
  simp only [parseSingleCase, Option.pure_def, Option.bind_eq_bind,
    Option.bind_eq_some] at h
  obtain ⟨sj, hsj, steps, hsteps, st, hst, iec, hiec, title, htitle,
    gh, hgh, pc, hpc, hmk⟩ := h
  obtain ⟨htc, ht5, ht300, hs1⟩ := mkTestCase_some _ _ _ _ _ _ _ _ _ _ _ _ _ hmk
  obtain ⟨hlen, hidx⟩ := parseSteps_spec sj 0 steps hsteps
  have hall : ∀ s₀ ∈ steps, 3 ≤ s₀.action.length ∧ 3 ≤ s₀.expected_result.length := by
    intro s₀ hs₀
    obtain ⟨i, hEq⟩ := List.mem_iff_get.mp hs₀
    have hi2 : i.val < sj.length := hlen ▸ i.isLt
    have hstep := hidx i.val hi2 i.isLt
    have hprops := parseStep_some _ _ _ hstep
    have hgi : steps.get ⟨i.val, i.isLt⟩ = s₀ := by rw [← hEq]
    rw [hgi] at hprops
    exact ⟨hprops.2.1, hprops.2.2⟩
  subst htc
  refine ⟨?_, ht5, ht300, ?_⟩
  · show renumberSteps 1 steps ≠ []
    have hrl : (renumberSteps 1 steps).length = steps.length := renumberSteps_length 1 steps
    intro hnil
    rw [hnil] at hrl
    simp at hrl
    omega
  · intro s hs
    obtain ⟨s₀, hs₀, ha, he⟩ := renumberSteps_mem steps 1 s hs
    rw [ha, he]
    exact hall s₀ hs₀

lemma collectCases_valid (req : GenRequest) :
    ∀ (l : List Json) (i : Nat) (tc : TestCase),
      tc ∈ collectCases req i l → validCase tc := by
  intro l
  induction l with
  | nil => intro i tc h; cases h
  | cons v vs ih =>
    intro i tc h
    cases v with
    | obj fields =>
      rcases hp : parseSingleCase fields req i with _ | tc'
      · rw [show collectCases req i (Json.obj fields :: vs) = collectCases req (i + 1) vs
            from by simp [collectCases, hp]] at h
        exact ih (i + 1) tc h
      · rw [show collectCases req i (Json.obj fields :: vs) =
              tc' :: collectCases req (i + 1) vs
            from by simp [collectCases, hp]] at h
        rcases List.mem_cons.mp h with he | hm
        · exact he ▸ parseSingleCase_valid fields req i tc' hp
        · exact ih (i + 1) tc hm
    | null => exact ih (i + 1) tc h
    | bool b => exact ih (i + 1) tc h
    | num n => exact ih (i + 1) tc h
    | str s => exact ih (i + 1) tc h
    | arr xs => exact ih (i + 1) tc h

lemma survivorsOf_valid (raw : JsonFields) (req : GenRequest)
    (tc : TestCase) (h : tc ∈ survivorsOf raw req) : validCase tc := by
  obtain ⟨tc₀, htc₀, hcore⟩ := mem_deduplicate_core _ _ _ h
  exact validCase_of_core _ _ hcore (collectCases_valid req _ 0 tc₀ htc₀)

lemma parse_false_ok (raw : JsonFields) (req : GenRequest) (mc : Nat)
    (suite : TestSuiteResponse) (h : parse raw req false mc = .ok suite) :
    suite.test_cases = (ensureRequiredCoverage (survivorsOf raw req) req).1 := by
  unfold parse finalizeSuite at h
  simp only [Bool.false_eq_true, if_false] at h
  rcases hs : summaryOf raw req with _ | s
  · rw [hs] at h; cases h
  · rw [hs] at h
    cases h
    rfl

lemma parse_true_ok (raw : JsonFields) (req : GenRequest) (mc : Nat)
    (suite : TestSuiteResponse) (h : parse raw req true mc = .ok suite) :
    suite.test_cases = survivorsOf raw req := by
  unfold parse finalizeSuite at h
  simp only [if_true] at h
  split at h
  · cases h
  · split at h
    · cases h
    · rcases hs : summaryOf raw req with _ | s
      · rw [hs] at h; cases h
      · rw [hs] at h; cases h; rfl


lemma tryCombo_quota_single (b : Nat → CallResult) (maxRetries : Nat) (e : String)
    (hmr : 1 ≤ maxRetries) (hb : b 0 = .failure e)
    (hrl : isRateLimitErr e = true) (hq : isQuotaErr e = true) :
    tryCombo b maxRetries = .exhausted 1 (some e) := by
  obtain ⟨m, rfl⟩ : ∃ m, maxRetries = m + 1 := ⟨maxRetries - 1, by omega⟩
  unfold tryCombo
  simp only [tryComboAux, hb, hrl, hq, Bool.and_self, if_true]

lemma tryComboAux_success_src (b : Nat → CallResult) (maxRetries : Nat) :
    ∀ (remaining attempt made : Nat) (le : Option String) (t : String) (n : Nat),
      tryComboAux b maxRetries attempt remaining made le = .success t n →
      ∃ k, b k = .success t := by
  intro remaining
  induction remaining with
  | zero => intro attempt made le t n h; simp [tryComboAux] at h
  | succ r ih =>
    intro attempt made le t n h
    rcases hb : b attempt with t' | e
    · simp only [tryComboAux, hb, ComboOutcome.success.injEq] at h
      exact ⟨attempt, by rw [hb, h.1]⟩
    · simp only [tryComboAux, hb] at h
      split at h
      · cases h
      · split at h
        · exact ih _ _ _ _ _ h
        · split at h
          · cases h
          · split at h
            · exact ih _ _ _ _ _ h
            · cases h

lemma tryCombo_success_src (b : Nat → CallResult) (maxRetries : Nat) (t : String)
    (n : Nat) (h : tryCombo b maxRetries = .success t n) : ∃ k, b k = .success t :=
  tryComboAux_success_src b maxRetries maxRetries 0 0 none t n h

lemma callGeminiGo_trace_mem (b : String × String → Nat → CallResult)
    (mr kc mc : Nat) :
    ∀ (combos : List (String × String)) (le : Option String)
      (acc : List ((String × String) × Nat)) (c : String × String) (n : Nat),
      (c, n) ∈ (callGeminiGo b mr kc mc combos le acc).2 →
      (c, n) ∈ acc ∨ n = (tryCombo (b c) mr).attemptsMade := by
  intro combos
  induction combos with
  | nil =>
    intro le acc c n h
    exact Or.inl h
  | cons c₀ cs ih =>
    intro le acc c n h
    rcases ht : tryCombo (b c₀) mr with ⟨t, made⟩ | ⟨made, comboErr⟩
    · simp only [callGeminiGo, ht] at h
      rcases List.mem_append.mp h with h | h
      · exact Or.inl h
      · rcases List.mem_singleton.mp h with hEq
        have hc : c = c₀ := congrArg Prod.fst hEq
        have hn : n = made := congrArg Prod.snd hEq
        subst hc
        right
        rw [hn, ht]
        rfl
    · simp only [callGeminiGo, ht] at h
      rcases ih _ _ c n h with h' | h'
      · rcases List.mem_append.mp h' with h'' | h''
        · exact Or.inl h''
        · rcases List.mem_singleton.mp h'' with hEq
          have hc : c = c₀ := congrArg Prod.fst hEq
          have hn : n = made := congrArg Prod.snd hEq
          subst hc
          right
          rw [hn, ht]
          rfl
      · exact Or.inr h'

lemma callGeminiGo_trace_shape (b : String × String → Nat → CallResult)
    (mr kc mc : Nat) :
    ∀ (combos : List (String × String)) (le : Option String)
      (acc : List ((String × String) × Nat)),
      ∃ tail rest, (callGeminiGo b mr kc mc combos le acc).2 = acc ++ tail ∧
        combos = tail.map Prod.fst ++ rest := by
  intro combos
  induction combos with
  | nil => intro le acc; exact ⟨[], [], by simp [callGeminiGo], rfl⟩
  | cons c₀ cs ih =>
    intro le acc
    rcases ht : tryCombo (b c₀) mr with ⟨t, made⟩ | ⟨made, comboErr⟩
    · exact ⟨[(c₀, made)], cs, by simp [callGeminiGo, ht], by simp⟩
    · cases comboErr with
      | some e =>
        obtain ⟨tail, rest, h1, h2⟩ := ih (some e) (acc ++ [(c₀, made)])
        refine ⟨(c₀, made) :: tail, rest, ?_, ?_⟩
        · simp only [callGeminiGo, ht]
          rw [h1]
          simp
        · simp [h2]
      | none =>
        obtain ⟨tail, rest, h1, h2⟩ := ih le (acc ++ [(c₀, made)])
        refine ⟨(c₀, made) :: tail, rest, ?_, ?_⟩
        · simp only [callGeminiGo, ht]
          rw [h1]
          simp
        · simp [h2]

lemma callGeminiGo_ok_last (b : String × String → Nat → CallResult)
    (mr kc mc : Nat) :
    ∀ (combos : List (String × String)) (le : Option String)
      (acc : List ((String × String) × Nat)) (t : String)
      (tr : List ((String × String) × Nat)),
      callGeminiGo b mr kc mc combos le acc = (.ok t, tr) →
      ∃ pre c n, tr = pre ++ [(c, n)] ∧ tryCombo (b c) mr = .success t n := by
  intro combos
  induction combos with
  | nil => intro le acc t tr h; cases congrArg Prod.fst h
  | cons c₀ cs ih =>
    intro le acc t tr h
    rcases ht : tryCombo (b c₀) mr with ⟨t', made⟩ | ⟨made, comboErr⟩
    · simp only [callGeminiGo, ht, Prod.mk.injEq, ChainResult.ok.injEq] at h
      exact ⟨acc, c₀, made, h.2.symm, by rw [ht, h.1]⟩
    · simp only [callGeminiGo, ht] at h
      exact ih _ _ t tr h

lemma callGeminiGo_all_fail (b : String × String → Nat → CallResult)
    (mr kc mc : Nat) (hfail : ∀ c k t, b c k ≠ .success t) :
    ∀ (combos : List (String × String)) (le : Option String)
      (acc : List ((String × String) × Nat)),
      ∃ le', (callGeminiGo b mr kc mc combos le acc).1 = .failed kc mc le' ∧
        (callGeminiGo b mr kc mc combos le acc).2.map Prod.fst =
          acc.map Prod.fst ++ combos := by
  intro combos
  induction combos with
  | nil => intro le acc; exact ⟨le, rfl, by simp [callGeminiGo]⟩
  | cons c₀ cs ih =>
    intro le acc
    rcases ht : tryCombo (b c₀) mr with ⟨t, made⟩ | ⟨made, comboErr⟩
    · obtain ⟨k, hk⟩ := tryCombo_success_src (b c₀) mr t made ht
      exact absurd hk (hfail c₀ k t)
    · cases comboErr with
      | some e =>
        obtain ⟨le', h1, h2⟩ := ih (some e) (acc ++ [(c₀, made)])
        refine ⟨le', ?_, ?_⟩
        · simp only [callGeminiGo, ht]
          exact h1
        · simp only [callGeminiGo, ht]
          rw [h2]
          simp
      | none =>
        obtain ⟨le', h1, h2⟩ := ih le (acc ++ [(c₀, made)])
        refine ⟨le', ?_, ?_⟩
        · simp only [callGeminiGo, ht]
          exact h1
        · simp only [callGeminiGo, ht]
          rw [h2]
          simp


/-- C1: in non-strict mode, the returned suite's cases are exactly the
post-dedup survivors followed by exactly one deterministic fallback case
per mandatory category (`happy_path`, `negative`, `edge_case`) absent
from the survivors; every fallback carries the `"fallback"` tag and its
category; consequently every returned suite covers all three mandatory
categories. -/
theorem C1_nonstrict_coverage (raw : JsonFields) (req : GenRequest)
    (mc : Nat) (suite : TestSuiteResponse) (h : parse raw req false mc = .ok suite) :
    suite.test_cases =
      survivorsOf raw req ++
        (requiredTypes.filter
          (fun t => t ∉ (survivorsOf raw req).map (fun tc => tc.scenario_type))).map
            (fun t => buildFallbackCase t req) ∧
    (∀ t ∈ requiredTypes, ∃ tc ∈ suite.test_cases, tc.scenario_type = t) ∧
    (∀ (t : ScenarioType) (req' : GenRequest),
      (buildFallbackCase t req').tags = [t.value, "fallback"] ∧
      (buildFallbackCase t req').scenario_type = t) := by
  have hc := parse_false_ok raw req mc suite h
  rw [ensureRequiredCoverage_eq] at hc
  refine ⟨hc, ?_, fun t req' => ⟨rfl, rfl⟩⟩
  intro t ht
  by_cases hmem : t ∈ (survivorsOf raw req).map (fun tc => tc.scenario_type)
  · obtain ⟨tc, htc, he⟩ := List.mem_map.mp hmem
    exact ⟨tc, by rw [hc]; exact List.mem_append_left _ htc, he⟩
  · refine ⟨buildFallbackCase t req, ?_, rfl⟩
    rw [hc]
    apply List.mem_append_right
    apply List.mem_map_of_mem
    rw [List.mem_filter]
    exact ⟨ht, by simpa using hmem⟩

/-- Witness for C1 at a concrete payload: one valid happy-path case
survives, and exactly the negative and edge-case fallbacks are
appended. -/
theorem C1_nonstrict_coverage_witness :
    parse demoRaw demoRequest false 3 = .ok demoSuite ∧
    demoSuite.test_cases =
      survivorsOf demoRaw demoRequest ++
        [buildFallbackCase .negative demoRequest,
         buildFallbackCase .edge_case demoRequest] := by
  have h : parse demoRaw demoRequest false 3 = .ok demoSuite := rfl
  refine ⟨h, ?_⟩
  have hc := (C1_nonstrict_coverage demoRaw demoRequest 3 demoSuite h).1
  rw [hc]
  decide

/-- C2 (amended): in non-strict mode `parse` returns a suite for every
raw object whose `user_story_summary`, when present, is a string — the
pydantic validation of that one field is the only failure path left. -/
theorem C2_nonstrict_total (raw : JsonFields) (req : GenRequest) (mc : Nat)
    (hsum : ∀ v, jsonGet raw "user_story_summary" = some v → ∃ s, v = Json.str s) :
    ∃ suite, parse raw req false mc = .ok suite := by
  have hs : ∃ s, summaryOf raw req = some s := by
    unfold summaryOf
    rcases hg : jsonGet raw "user_story_summary" with _ | v
    · exact ⟨_, rfl⟩
    · obtain ⟨s, rfl⟩ := hsum v hg
      exact ⟨s, rfl⟩
  obtain ⟨s, hs⟩ := hs
  unfold parse finalizeSuite
  simp only [Bool.false_eq_true, if_false, hs]
  exact ⟨_, rfl⟩

/-- Witness for C2 at a concrete payload without a summary field. -/
theorem C2_nonstrict_total_witness :
    (parse demoRaw demoRequest false 3).isOk = true := by
  obtain ⟨suite, hsuite⟩ :=
    C2_nonstrict_total demoRaw demoRequest 3 (fun v hv => nomatch hv)
  rw [hsuite]
  rfl

/-- C2 counterexample: a parseable JSON object whose
`user_story_summary` is the number 1 makes the non-strict parse raise
(pydantic rejects a non-string value for a `str` field), refuting the
claim that only strict mode can fail. -/
theorem C2_counterexample :
    parse (.ofList [("user_story_summary", Json.num 1)]) demoRequest false 3 =
      .error .validationError := by
  decide


lemma parse_true_eq (raw : JsonFields) (req : GenRequest) (mc : Nat) :
    parse raw req true mc =
      if (survivorsOf raw req).length < max mc 1 then
        .error (.tooFewCases (survivorsOf raw req).length (max mc 1))
      else if missingRequiredTypes (survivorsOf raw req) = [] then
        finalizeSuite raw req (survivorsOf raw req)
      else
        .error (.missingTypes (missingRequiredTypes (survivorsOf raw req))) := by
  by_cases h1 : (survivorsOf raw req).length < max mc 1
  · simp [parse, h1]
  · by_cases h2 : missingRequiredTypes (survivorsOf raw req) = []
    · simp [parse, h1, h2]
    · simp [parse, h1, h2]

/-- C3 (amended): with strict mode on, `parse` never synthesizes
fallback cases; it raises the count `ValueError` whenever the post-dedup
survivor count is below `max(min_cases, 1)`, and otherwise raises the
coverage `ValueError` (whose message enumerates every missing category
name) whenever a mandatory category is absent; a successful strict parse
implies both conditions held and returns exactly the survivors.  When
the count condition fails, the count error takes precedence and its
message does not list the missing categories. -/
theorem C3_strict_validation (raw : JsonFields) (req : GenRequest) (mc : Nat) :
    ((survivorsOf raw req).length < max mc 1 →
      parse raw req true mc =
        .error (.tooFewCases (survivorsOf raw req).length (max mc 1))) ∧
    (max mc 1 ≤ (survivorsOf raw req).length →
      missingRequiredTypes (survivorsOf raw req) ≠ [] →
      parse raw req true mc =
        .error (.missingTypes (missingRequiredTypes (survivorsOf raw req)))) ∧
    (∀ suite, parse raw req true mc = .ok suite →
      suite.test_cases = survivorsOf raw req ∧
      max mc 1 ≤ (survivorsOf raw req).length ∧
      missingRequiredTypes (survivorsOf raw req) = []) ∧
    (∀ (ms : List ScenarioType) (t : ScenarioType), t ∈ ms →
      strContains (errMessage (.missingTypes ms)) t.value = true) := by
  refine ⟨?_, ?_, ?_, ?_⟩
  · intro hlt
    rw [parse_true_eq, if_pos hlt]
  · intro hge hmiss
    rw [parse_true_eq, if_neg (Nat.not_lt.mpr hge), if_neg hmiss]
  · intro suite h
    by_cases h1 : (survivorsOf raw req).length < max mc 1
    · rw [parse_true_eq, if_pos h1] at h
      cases h
    · by_cases h2 : missingRequiredTypes (survivorsOf raw req) = []
      · exact ⟨parse_true_ok raw req mc suite h, Nat.not_lt.mp h1, h2⟩
      · rw [parse_true_eq, if_neg h1, if_neg h2] at h
        cases h
  · intro ms t ht
    obtain ⟨a, b, hab⟩ :=
      pyJoin_decomp ", " t.value (ms.map ScenarioType.value) (List.mem_map_of_mem _ ht)
    apply strContains_of_decomp _ _
      ("Strict mode: missing required scenario types: " ++ a) (b ++ ".")
    show "Strict mode: missing required scenario types: " ++
        pyJoin ", " (ms.map ScenarioType.value) ++ "." = _
    rw [hab]
    simp only [String.append_assoc]

/-- Witness for C3: a strict parse with `min_cases = 5` over a payload
yielding two valid cases fails with the count error. -/
theorem C3_strict_validation_witness :
    parse strictRaw demoRequest true 5 = .error (.tooFewCases 2 5) := by
  have h := (C3_strict_validation strictRaw demoRequest 5).1 (by decide)
  have hl : (survivorsOf strictRaw demoRequest).length = 2 := by decide
  rw [hl] at h
  exact h

/-- C3 counterexample: when both the count and the coverage conditions
are violated, the raised error is the count `ValueError`; categories are
missing, yet its message does not name any of them — refuting the
claim's "when categories are missing, the error message enumerates the
missing category names". -/
theorem C3_counterexample :
    parse strictRaw demoRequest true 5 = .error (.tooFewCases 2 5) ∧
    missingRequiredTypes (survivorsOf strictRaw demoRequest) =
      [.negative, .edge_case] ∧
    strContains (errMessage (.tooFewCases 2 5)) "negative" = false ∧
    strContains (errMessage (.tooFewCases 2 5)) "edge_case" = false := by
  exact ⟨by decide, by decide, by decide, by decide⟩


/-- C4: two cases of the same scenario type on a two-element list merge
exactly when the Jaccard similarity of their lowercase step-action token
sets reaches the inclusive 0.85 threshold; two empty token sets have
similarity 1; cases with different scenario types are never merged. -/
theorem C4_jaccard_threshold :
    (∀ a b : TestCase,
      (deduplicateTestCases [a, b]).length = 1 ↔
        (a.scenario_type = b.scenario_type ∧
          mkRat 85 100 ≤ jaccardSimilarity (caseTokens a) (caseTokens b))) ∧
    jaccardSimilarity [] [] = 1 ∧
    (∀ a b : TestCase, a.scenario_type ≠ b.scenario_type →
      deduplicateTestCases [a, b] = [a, b]) := by
  refine ⟨?_, rfl, ?_⟩
  · intro a b
    rw [deduplicate_pair]
    by_cases h : a.scenario_type = b.scenario_type ∧
        mkRat 85 100 ≤ jaccardSimilarity (caseTokens a) (caseTokens b)
    · rw [if_pos h]
      constructor
      · intro _; exact h
      · intro _
        split_ifs <;> rfl
    · rw [if_neg h]
      simp [h]
  · intro a b hne
    rw [deduplicate_pair, if_neg]
    intro hc
    exact hne hc.1

/-- Witness for C4: a pair at similarity exactly 17/20 = 0.85 collapses
to one case; a pair at 21/25 = 0.84 both survive. -/
theorem C4_jaccard_threshold_witness :
    (deduplicateTestCases [sim85A, sim85B]).length = 1 ∧
    (deduplicateTestCases [sim84A, sim84B]).length = 2 ∧
    jaccardSimilarity (caseTokens sim85A) (caseTokens sim85B) = mkRat 17 20 ∧
    jaccardSimilarity (caseTokens sim84A) (caseTokens sim84B) = mkRat 21 25 := by
  refine ⟨(C4_jaccard_threshold.1 sim85A sim85B).mpr ⟨rfl, by decide⟩,
    by decide, by decide, by decide⟩

/-- C5 (amended): a merged pair retains the case with strictly more
steps (ties retain the first); the merge appends to the retained case
each precondition of the discarded case that was absent from the
retained case's list as it stood before the merge — a precondition
repeated inside the discarded list is appended once per repeat, since
the source computes its `existing` set once; the retained case is
otherwise unchanged; survivors keep their original relative order.  On
the spec's example, B (3 steps) survives with preconditions
`["x", "y"]`. -/
theorem C5_merge_behaviour :
    (∀ a b : TestCase, a.scenario_type = b.scenario_type →
      mkRat 85 100 ≤ jaccardSimilarity (caseTokens a) (caseTokens b) →
      deduplicateTestCases [a, b] =
        if a.steps.length < b.steps.length then [mergePreconditions b a]
        else [mergePreconditions a b]) ∧
    (∀ k r : TestCase,
      (mergePreconditions k r).preconditions =
        k.preconditions ++ r.preconditions.filter (fun p => p ∉ k.preconditions) ∧
      caseCore (mergePreconditions k r) = caseCore k) ∧
    (∀ (cases : List TestCase) (th : ℚ),
      ((deduplicateTestCases cases th).map caseCore).Sublist (cases.map caseCore)) ∧
    deduplicateTestCases [exPreA, exPreB] =
      [{ exPreB with preconditions := ["x", "y"] }] := by
  refine ⟨?_, fun k r => ⟨rfl, rfl⟩, deduplicate_core_sublist, by decide⟩
  intro a b hty hsim
  rw [deduplicate_pair, if_pos ⟨hty, hsim⟩]

/-- Witness for C5: the spec's merge example — A (2 steps,
preconditions `["x"]`) against B (3 steps, `["x", "y"]`) keeps B with
preconditions exactly `["x", "y"]`. -/
theorem C5_merge_behaviour_witness :
    deduplicateTestCases [exPreA, exPreB] = [mergePreconditions exPreB exPreA] ∧
    (mergePreconditions exPreB exPreA).preconditions = ["x", "y"] := by
  have h := C5_merge_behaviour.1 exPreA exPreB rfl (by decide)
  refine ⟨?_, by decide⟩
  rw [h, if_pos (by decide)]

/-- C5 counterexample: merging a discarded case whose precondition list
repeats `"y"` into a keeper holding `["x"]` yields `["x", "y", "y"]` —
the merge does introduce duplicates, refuting the claim's "no duplicates
introduced". -/
theorem C5_counterexample :
    deduplicateTestCases [dupPreA, dupPreB] =
      [{ dupPreB with preconditions := ["x", "y", "y"] }] ∧
    ¬ (["x", "y", "y"] : List String).Nodup := by
  exact ⟨by decide, by decide⟩


/-- C6: the call layer walks the (credential, model) combinations in
order (the trace of combinations tried is always a prefix of the full
list); a combination whose first attempt raises an error carrying both
the rate-limit and the quota/billing signals is abandoned after exactly
one attempt; a success is returned as soon as it occurs — the trace ends
at the successful combination; and when no call ever succeeds, the
failure carries the `len(keys) × len(models)` tally and every
combination was tried. -/
theorem C6_retry_fallback (keys models : List String)
    (b : String × String → Nat → CallResult) (maxRetries : Nat) :
    (∃ rest, allCombos keys models =
      ((callGemini keys models b maxRetries).2.map Prod.fst) ++ rest) ∧
    (∀ (c : String × String) (n : Nat),
      (c, n) ∈ (callGemini keys models b maxRetries).2 →
      ∀ e, b c 0 = .failure e → isRateLimitErr e = true → isQuotaErr e = true →
        1 ≤ maxRetries → n = 1) ∧
    (∀ t, (callGemini keys models b maxRetries).1 = .ok t →
      ∃ pre c n, (callGemini keys models b maxRetries).2 = pre ++ [(c, n)] ∧
        tryCombo (b c) maxRetries = .success t n) ∧
    ((∀ (c : String × String) (k : Nat) (t : String), b c k ≠ .success t) →
      (∃ le, (callGemini keys models b maxRetries).1 =
          .failed keys.length models.length le) ∧
        (callGemini keys models b maxRetries).2.map Prod.fst =
          allCombos keys models) := by
  refine ⟨?_, ?_, ?_, ?_⟩
  · obtain ⟨tail, rest, h1, h2⟩ :=
      callGeminiGo_trace_shape b maxRetries keys.length models.length
        (allCombos keys models) none []
    refine ⟨rest, ?_⟩
    unfold callGemini
    rw [h1]
    simpa using h2
  · intro c n hmem e hb hrl hq hmr
    rcases callGeminiGo_trace_mem b maxRetries keys.length models.length
        (allCombos keys models) none [] c n hmem with h | h
    · cases h
    · rw [h, tryCombo_quota_single (b c) maxRetries e hmr hb hrl hq]
      rfl
  · intro t ht
    have heq : callGeminiGo b maxRetries keys.length models.length
        (allCombos keys models) none [] =
        ((callGemini keys models b maxRetries).1,
         (callGemini keys models b maxRetries).2) := Prod.mk.eta.symm
    rw [ht] at heq
    exact callGeminiGo_ok_last b maxRetries keys.length models.length
      (allCombos keys models) none [] t _ heq
  · intro hfail
    obtain ⟨le, h1, h2⟩ :=
      callGeminiGo_all_fail b maxRetries keys.length models.length hfail
        (allCombos keys models) none []
    exact ⟨⟨le, h1⟩, by simpa using h2⟩

/-- Witness for C6: credential `key1` fails with a quota+rate-limit
error on every model; the chain tries each `key1` combination exactly
once, then returns the success of `key2`/`m1` immediately. -/
theorem C6_retry_fallback_witness :
    (callGemini ["key1", "key2"] ["m1", "m2"] behavC6 3).1 = .ok "ok-text" ∧
    ((("key1", "m1"), 1) ∈ (callGemini ["key1", "key2"] ["m1", "m2"] behavC6 3).2) ∧
    behavC6 ("key1", "m1") 0 = .failure quotaErrText ∧
    isRateLimitErr quotaErrText = true ∧
    isQuotaErr quotaErrText = true ∧
    (callGemini ["key1", "key2"] ["m1", "m2"] behavC6 3).2 =
      [(("key1", "m1"), 1), (("key1", "m2"), 1), (("key2", "m1"), 1)] := by
  refine ⟨by decide, ?_, rfl, by decide, by decide, by decide⟩
  have h := (C6_retry_fallback ["key1", "key2"] ["m1", "m2"] behavC6 3).2.1
    ("key1", "m1") 1 (by decide) quotaErrText rfl (by decide) (by decide) (by decide)
  decide

lemma collapseNull_ne_null (r : Option Json) : collapseNull r ≠ some Json.null := by
  cases r with
  | none => simp [collapseNull]
  | some v => cases v <;> simp [collapseNull]

/-- Whatever `json.loads` does, extraction never reports a parsed
top-level `null` as success: at the caller it is Python `None`, i.e.
failure. -/
lemma extractJsonText_ne_null (jsonLoads : String → Option Json) (text : String) :
    extractJsonText jsonLoads text ≠ some Json.null := by
  unfold extractJsonText
  rcases h : jsonLoads text with _ | v
  · simp only [h]
    rcases h2 : List.findIdx? (fun c => c == '{') text.toList with _ | si
    · simp [h2]
    · simp only [h2]
      rcases h3 : List.findIdx? (fun c => c == '}') text.toList.reverse with _ | ri
      · simp [h3]
      · simp only [h3]
        split
        · exact collapseNull_ne_null _
        · simp
  · simp only [h]
    exact collapseNull_ne_null _

lemma extractJson_ne_null (jsonLoads : String → Option Json) (raw : String) :
    extractJson jsonLoads raw ≠ some Json.null := by
  unfold extractJson
  exact extractJsonText_ne_null jsonLoads _

/-- C7 (amended): a turn-1 extraction failure — which includes a parsed
top-level `null`, indistinguishable from failure at the caller — issues
exactly one self-correction turn embedding the broken output truncated
to 3000 characters; two failed turns raise with only a 500-character
preview of the raw text, keeping the message bounded.  When extraction
succeeds on a turn, the parsed value is handed to the unconditional
coverage-gap-fill stage and `generate` returns that stage's outcome: the
(possibly extended) object for a dict, but an uncaught `TypeError` when
the parsed JSON is a number or boolean (its membership test is not
defined on non-iterables). -/
theorem C7_two_turn (jsonLoads : String → Option Json)
    (backend : Nat → String → String) (gapFillTurn : JsonFields → Except String Json)
    (prompt : String) :
    (∀ raw, extractJson jsonLoads raw ≠ some Json.null) ∧
    (∀ (n : Int), fillCoverageGaps gapFillTurn (.num n) =
      .error "TypeError: argument is not iterable") ∧
    (∀ (b : Bool), fillCoverageGaps gapFillTurn (.bool b) =
      .error "TypeError: argument is not iterable") ∧
    (∀ p, extractJson jsonLoads (backend 0 prompt) = some p →
      (generate jsonLoads backend gapFillTurn prompt).2 = [prompt] ∧
      ∀ r, fillCoverageGaps gapFillTurn p = r →
        (generate jsonLoads backend gapFillTurn prompt).1 =
          (match r with
           | .ok v => .ok v
           | .error e => .uncaught e)) ∧
    (extractJson jsonLoads (backend 0 prompt) = none →
      (generate jsonLoads backend gapFillTurn prompt).2 =
        [prompt, buildCorrectionPrompt (backend 0 prompt)] ∧
      (∃ a b, buildCorrectionPrompt (backend 0 prompt) =
        a ++ pyTake (backend 0 prompt) 3000 ++ b) ∧
      (∀ p, extractJson jsonLoads
          (backend 1 (buildCorrectionPrompt (backend 0 prompt))) = some p →
        ∀ r, fillCoverageGaps gapFillTurn p = r →
          (generate jsonLoads backend gapFillTurn prompt).1 =
            (match r with
             | .ok v => .ok v
             | .error e => .uncaught e)) ∧
      (extractJson jsonLoads
          (backend 1 (buildCorrectionPrompt (backend 0 prompt))) = none →
        (generate jsonLoads backend gapFillTurn prompt).1 =
          .invalidOutput
            ("Gemini failed to produce valid JSON after 2 turns. Raw output: " ++
              pyTake (backend 1 (buildCorrectionPrompt (backend 0 prompt))) 500) ∧
        ∀ msg, (generate jsonLoads backend gapFillTurn prompt).1 =
            .invalidOutput msg →
          msg.length ≤
            ("Gemini failed to produce valid JSON after 2 turns. Raw output: ").length
              + 500)) := by
  refine ⟨extractJson_ne_null jsonLoads, fun n => rfl, fun b => rfl, ?_, ?_⟩
  · intro p hp
    constructor
    · simp only [generate, hp]
    · intro r hr
      subst hr
      simp only [generate, hp]
  · intro h1
    have hgen2 : (generate jsonLoads backend gapFillTurn prompt).2 =
        [prompt, buildCorrectionPrompt (backend 0 prompt)] := by
      simp only [generate, h1]
      rcases extractJson jsonLoads
          (backend 1 (buildCorrectionPrompt (backend 0 prompt))) with _ | p
      · rfl
      · rcases fillCoverageGaps gapFillTurn p with v | e <;> rfl
    refine ⟨hgen2, ⟨"The following output was supposed to be valid JSON\n" ++
      "matching a test case schema, but it has syntax errors.\n\n" ++
      "Fix it and return ONLY valid JSON. Do not explain.\n\n" ++
      "BROKEN OUTPUT:\n", "\n\nReturn the corrected JSON:", ?_⟩, ?_, ?_⟩
    · unfold buildCorrectionPrompt
      simp only [String.append_assoc]
    · intro p hp r hr
      subst hr
      simp only [generate, h1, hp]
    · intro h2
      have hmsg : (generate jsonLoads backend gapFillTurn prompt).1 =
          .invalidOutput
            ("Gemini failed to produce valid JSON after 2 turns. Raw output: " ++
              pyTake (backend 1 (buildCorrectionPrompt (backend 0 prompt))) 500) := by
        simp only [generate, h1, h2]
      refine ⟨hmsg, ?_⟩
      intro msg hmsg2
      rw [hmsg] at hmsg2
      have hmeq : msg =
          "Gemini failed to produce valid JSON after 2 turns. Raw output: " ++
            pyTake (backend 1 (buildCorrectionPrompt (backend 0 prompt))) 500 := by
        cases hmsg2
        rfl
      rw [hmeq, String.length_append]
      exact Nat.add_le_add_left (pyTake_length_le _ _) _

/-- Witness for C7: turn 1 returns `"not json at all"`, the correction
turn returns a fenced empty object — `generate` returns the (gap-fill
checked) corrected object after exactly two calls. -/
theorem C7_two_turn_witness :
    extractJson demoJsonLoads (demoBackend 0 "Generate tests") = none ∧
    fillCoverageGaps demoGapFillTurn (Json.obj .nil) = .ok (Json.obj .nil) ∧
    (generate demoJsonLoads demoBackend demoGapFillTurn "Generate tests").1 =
      .ok (Json.obj .nil) ∧
    (generate demoJsonLoads demoBackend demoGapFillTurn "Generate tests").2 =
      ["Generate tests",
       buildCorrectionPrompt (demoBackend 0 "Generate tests")] := by
  have h1 : extractJson demoJsonLoads (demoBackend 0 "Generate tests") = none := rfl
  have h := (C7_two_turn demoJsonLoads demoBackend demoGapFillTurn
      "Generate tests").2.2.2.2 h1
  exact ⟨h1, rfl, h.2.2.1 (Json.obj .nil) rfl (.ok (Json.obj .nil)) rfl, h.1⟩

/-- C7 counterexample: backend text `"5"` parses on turn 1, yet
`generate` does not return the parsed object — the unconditional
gap-fill stage raises `TypeError` on the non-iterable value and the
exception escapes, refuting "if extraction succeeds on either turn, the
parsed object is returned". -/
theorem C7_counterexample :
    extractJson numJsonLoads (numBackend 0 "Generate tests") = some (Json.num 5) ∧
    (generate numJsonLoads numBackend demoGapFillTurn "Generate tests").1 =
      .uncaught "TypeError: argument is not iterable" ∧
    (generate numJsonLoads numBackend demoGapFillTurn "Generate tests").1.isOkGen =
      false := by
  exact ⟨rfl, rfl, rfl⟩

/-- C8: a successfully parsed case's steps correspond one-to-one, in
order, with the raw step entries: position `i` holds the step the loop
built from raw entry `i`, numbered `i + 1` (so numbering is contiguous
from 1 and matches list position, whatever the raw `step_number`s said);
a non-dict raw entry is coerced to a step whose action is the entry's
Python string form; a step dict's missing `action` defaults to
`"Step {n}"` and its missing `expected_result` to
`"Result not specified"`. -/
theorem C8_step_coercion (raw : JsonFields) (req : GenRequest) (idx : Nat)
    (tc : TestCase) (h : parseSingleCase raw req idx = some tc) :
    (∀ i s, tc.steps.get? i = some s → s.step_number = i + 1) ∧
    (∃ stepsJson,
      enumerateSteps ((jsonGet raw "steps").getD (.arr .nil)) = some stepsJson ∧
      tc.steps.length = stepsJson.length ∧
      ∀ i v, stepsJson.get? i = some v → parseStep i v = tc.steps.get? i) ∧
    (∀ (j : Nat) (v : Json), (∀ fields, v ≠ .obj fields) →
      parseStep j v = mkTestStep (j + 1) (pyStr v) none "Result not specified") ∧
    (∀ (j : Nat) (fields : JsonFields) (s : TestStep),
      parseStep j (.obj fields) = some s →
      (jsonGet fields "action" = none → s.action = "Step " ++ toString (j + 1)) ∧
      (jsonGet fields "expected_result" = none →
        s.expected_result = "Result not specified")) := by
  simp only [parseSingleCase, Option.pure_def, Option.bind_eq_bind,
    Option.bind_eq_some] at h
  obtain ⟨sj, hsj, steps, hsteps, st, hst, iec, hiec, title, htitle,
    gh, hgh, pc, hpc, hmk⟩ := h
  obtain ⟨htc, ht5, ht300, hs1⟩ := mkTestCase_some _ _ _ _ _ _ _ _ _ _ _ _ _ hmk
  obtain ⟨hlen, hidx⟩ := parseSteps_spec sj 0 steps hsteps
  have hnum : ∀ i (hi : i < steps.length), (steps.get ⟨i, hi⟩).step_number = 1 + i := by
    intro i hi
    have hi2 : i < sj.length := hlen ▸ hi
    have hstep := hidx i hi2 hi
    have hprops := parseStep_some _ _ _ hstep
    rw [hprops.1]
    omega
  have hren : renumberSteps 1 steps = steps := renumberSteps_id steps 1 hnum
  have hsteps_eq : tc.steps = steps := by rw [htc]; exact hren
  refine ⟨?_, ⟨sj, hsj, ?_, ?_⟩, ?_, ?_⟩
  · intro i s hs
    rw [hsteps_eq] at hs
    obtain ⟨hi, hget⟩ := List.get?_eq_some.mp hs
    rw [← hget]
    rw [hnum i hi]
    omega
  · rw [hsteps_eq, hlen]
  · intro i v hv
    obtain ⟨hi, hget⟩ := List.get?_eq_some.mp hv
    have hi2 : i < steps.length := hlen ▸ hi
    have := hidx i hi hi2
    rw [hsteps_eq]
    rw [← hget]
    rw [List.get?_eq_get hi2]
    simpa using this
  · intro j v hno
    cases v with
    | obj fields => exact absurd rfl (hno fields)
    | null => rfl
    | bool b => rfl
    | num n => rfl
    | str s => rfl
    | arr xs => rfl
  · intro j fields s hps
    simp only [parseStep, Option.pure_def, Option.bind_eq_bind,
      Option.bind_eq_some] at hps
    obtain ⟨act, hact, inp, hinp, exp, hexp, hmk2⟩ := hps
    obtain ⟨hse, _, _, _⟩ := mkTestStep_some _ _ _ _ _ hmk2
    subst hse
    constructor
    · intro hnone
      rw [hnone] at hact
      simp only [pydStrD, Option.some.injEq] at hact
      rw [← hact]
    · intro hnone
      rw [hnone] at hexp
      simp only [pydStrD, Option.some.injEq] at hexp
      rw [← hexp]

/-- Witness for C8: a raw case mixing a bare-string step, a dict with a
missing action and a dict with a missing expected result parses to three
steps numbered 1, 2, 3 with the coerced and defaulted fields. -/
theorem C8_step_coercion_witness :
    parseSingleCase stepsDemoRaw demoRequest 0 = some stepsDemoCase ∧
    stepsDemoCase.steps.map (fun s => s.step_number) = [1, 2, 3] ∧
    stepsDemoCase.steps.map (fun s => s.action) =
      ["Do the first thing", "Step 2", "Another action"] ∧
    stepsDemoCase.steps.map (fun s => s.expected_result) =
      ["Result not specified", "It works", "Result not specified"] ∧
    stepsDemoCase.steps.get? 1 = some ⟨2, "Step 2", none, "It works"⟩ ∧
    (2 : Nat) = 1 + 1 := by
  refine ⟨rfl, by decide, by decide, by decide, by decide, ?_⟩
  exact (C8_step_coercion stepsDemoRaw demoRequest 0 stepsDemoCase rfl).1 1
    ⟨2, "Step 2", none, "It works"⟩ (by decide)


lemma parseSingleCase_no_steps (raw2 : JsonFields) (req : GenRequest) (idx : Nat)
    (hempty : enumerateSteps ((jsonGet raw2 "steps").getD (.arr .nil)) = some []) :
    parseSingleCase raw2 req idx = none := by
  simp only [parseSingleCase, hempty, parseSteps, Option.pure_def,
    Option.bind_eq_bind, Option.some_bind]
  rcases h1 : normalizeScenarioType raw2 with _ | st
  · simp [h1]
  · simp only [h1, Option.some_bind]
    rcases h3 : parseIsEdgeCase ((jsonGet raw2 "is_edge_case").getD (.bool false)) st
      with _ | iec
    · simp [h3]
    · simp only [h3, Option.some_bind]
      rcases h4 : pydStrD (jsonGet raw2 "title") ("Test Case " ++ toString (idx + 1))
        with _ | title
      · simp [h4]
      · simp only [h4, Option.some_bind]
        rcases h5 : pydOptStr (jsonGet raw2 "gherkin") with _ | gh
        · simp [h5]
        · simp only [h5, Option.some_bind]
          rcases h6 : pydOptStr (jsonGet raw2 "pytest_code") with _ | pc
          · simp [h6]
          · simp only [h6, Option.some_bind]
            simp [mkTestCase]

lemma parseSingleCase_bad_title (raw2 : JsonFields) (req : GenRequest) (idx : Nat)
    (t : String) (htitle : jsonGet raw2 "title" = some (.str t))
    (hbad : t.length < 5 ∨ 300 < t.length) :
    parseSingleCase raw2 req idx = none := by
  have ht : pydStrD (jsonGet raw2 "title") ("Test Case " ++ toString (idx + 1)) =
      some t := by
    rw [htitle]
    rfl
  simp only [parseSingleCase, Option.pure_def, Option.bind_eq_bind]
  rcases h0 : enumerateSteps ((jsonGet raw2 "steps").getD (.arr .nil)) with _ | sj
  · simp [h0]
  · simp only [h0, Option.some_bind]
    rcases h1 : parseSteps 0 sj with _ | steps
    · simp [h1]
    · simp only [h1, Option.some_bind]
      rcases h2 : normalizeScenarioType raw2 with _ | st
      · simp [h2]
      · simp only [h2, Option.some_bind]
        rcases h4 : parseIsEdgeCase
            ((jsonGet raw2 "is_edge_case").getD (.bool false)) st with _ | iec
        · simp [h4]
        · simp only [h4, Option.some_bind, ht]
          rcases h5 : pydOptStr (jsonGet raw2 "gherkin") with _ | gh
          · simp [h5]
          · simp only [h5, Option.some_bind]
            rcases h6 : pydOptStr (jsonGet raw2 "pytest_code") with _ | pc
            · simp [h6]
            · simp only [h6, Option.some_bind]
              unfold mkTestCase
              rw [if_neg]
              rintro ⟨g5, g300, _⟩
              omega

/-- C9: `acquire()` of the secondary backend's limiter raises the daily
`QuotaExceeded` error exactly when the (day-rolled) request count has
reached the `rpd` cap — and it does so regardless of the clock, i.e.
without waiting for the inter-call interval; when the calendar day
changes, the counter restarts from zero, so the call succeeds and the
new state records one request for the new day. -/
theorem C9_daily_cap (rpm rpd : Nat) (today : Int) (now : ℚ) (st : RLState) :
    ((∃ msg st2, acquire (mkRateLimiter rpm rpd) today now st =
        .quotaExceeded msg st2) ↔
      (mkRateLimiter rpm rpd).rpd ≤
        (if today ≠ st.windowDay then 0 else st.requestsToday)) ∧
    ((mkRateLimiter rpm rpd).rpd ≤
        (if today ≠ st.windowDay then 0 else st.requestsToday) →
      ∀ now2 : ℚ, acquire (mkRateLimiter rpm rpd) today now st =
        acquire (mkRateLimiter rpm rpd) today now2 st) ∧
    (today ≠ st.windowDay →
      ∃ st2 w, acquire (mkRateLimiter rpm rpd) today now st = .ok st2 w ∧
        st2.requestsToday = 1 ∧ st2.windowDay = today) := by
  have hrpd : 1 ≤ (mkRateLimiter rpm rpd).rpd := Nat.le_max_right rpd 1
  refine ⟨⟨?_, ?_⟩, ?_, ?_⟩
  · intro ⟨msg, st2, hEq⟩
    by_cases hday : today ≠ st.windowDay
    · rw [if_pos hday]
      by_contra hlt
      simp only [acquire, if_pos hday] at hEq
      rw [if_neg hlt] at hEq
      cases hEq
    · rw [if_neg hday]
      by_contra hlt
      simp only [acquire, if_neg hday] at hEq
      rw [if_neg hlt] at hEq
      cases hEq
  · intro hcap
    by_cases hday : today ≠ st.windowDay
    · rw [if_pos hday] at hcap
      simp only [acquire, if_pos hday, if_pos hcap]
      exact ⟨_, _, rfl⟩
    · rw [if_neg hday] at hcap
      simp only [acquire, if_neg hday, if_pos hcap]
      exact ⟨_, _, rfl⟩
  · intro hcap now2
    by_cases hday : today ≠ st.windowDay
    · rw [if_pos hday] at hcap
      simp only [acquire, if_pos hday, if_pos hcap]
    · rw [if_neg hday] at hcap
      simp only [acquire, if_neg hday, if_pos hcap]
  · intro hday
    have hcap : ¬ (mkRateLimiter rpm rpd).rpd ≤ (0 : Nat) := by omega
    simp only [acquire, if_pos hday, if_neg hcap]
    exact ⟨_, _, rfl, rfl, rfl⟩

/-- Witness for C9: with a cap of 50, a state holding 50 requests today
errors regardless of the clock, and a new calendar day resets the
counter and succeeds with one recorded request. -/
theorem C9_daily_cap_witness :
    (¬ (acquire (mkRateLimiter 10 50) 100 0 ⟨100, 50, 0⟩).isOkAcq = true) ∧
    acquire (mkRateLimiter 10 50) 100 0 ⟨100, 50, 0⟩ =
      acquire (mkRateLimiter 10 50) 100 7 ⟨100, 50, 0⟩ ∧
    (acquire (mkRateLimiter 10 50) 101 0 ⟨100, 50, 0⟩).isOkAcq = true ∧
    (acquire (mkRateLimiter 10 50) 101 0 ⟨100, 50, 0⟩).countAcq = 1 := by
  have hth := C9_daily_cap 10 50 100 0 ⟨100, 50, 0⟩
  have herr := hth.1.mpr (by decide)
  have hind := hth.2.1 (by decide) 7
  have hth2 := C9_daily_cap 10 50 101 0 ⟨100, 50, 0⟩
  obtain ⟨st2, w, hEq, hcount, hday⟩ := hth2.2.2 (by decide)
  obtain ⟨msg, st3, hEq2⟩ := herr
  refine ⟨?_, hind, ?_, ?_⟩
  · rw [hEq2]
    simp [AcquireResult.isOkAcq]
  · rw [hEq]
    rfl
  · rw [hEq]
    simpa [AcquireResult.countAcq] using hcount

/-- C10: field defaulting repairs only missing keys — a raw case whose
`steps` key is absent or an empty list, or whose present `title` string
is shorter than 5 or longer than 300 characters, never yields a
`TestCase` (it is counted malformed and skipped while the batch
continues); consequently every case in any suite `parse` returns has a
non-empty step list, a title of 5–300 characters, and step actions and
expected results of at least 3 characters. -/
theorem C10_field_validation (raw : JsonFields) (req : GenRequest)
    (sm : Bool) (mc : Nat) (suite : TestSuiteResponse)
    (h : parse raw req sm mc = .ok suite) :
    (∀ tc ∈ suite.test_cases, validCase tc) ∧
    (∀ (raw2 : JsonFields) (idx : Nat), jsonGet raw2 "steps" = none →
      parseSingleCase raw2 req idx = none) ∧
    (∀ (raw2 : JsonFields) (idx : Nat),
      jsonGet raw2 "steps" = some (.arr .nil) →
      parseSingleCase raw2 req idx = none) ∧
    (∀ (raw2 : JsonFields) (idx : Nat) (t : String),
      jsonGet raw2 "title" = some (.str t) →
      (t.length < 5 ∨ 300 < t.length) →
      parseSingleCase raw2 req idx = none) := by
  refine ⟨?_, ?_, ?_, ?_⟩
  · intro tc htc
    cases sm with
    | false =>
      rw [parse_false_ok raw req mc suite h, ensureRequiredCoverage_eq] at htc
      rcases List.mem_append.mp htc with hm | hm
      · exact survivorsOf_valid raw req tc hm
      · obtain ⟨t, _, he⟩ := List.mem_map.mp hm
        rw [← he]
        exact buildFallbackCase_valid t req
    | true =>
      rw [parse_true_ok raw req mc suite h] at htc
      exact survivorsOf_valid raw req tc htc
  · intro raw2 idx hnone
    exact parseSingleCase_no_steps raw2 req idx (by rw [hnone]; rfl)
  · intro raw2 idx hempty
    exact parseSingleCase_no_steps raw2 req idx (by rw [hempty]; rfl)
  · intro raw2 idx t htitle hbad
    exact parseSingleCase_bad_title raw2 req idx t htitle hbad

/-- Witness for C10: the first case of the demo suite satisfies the
structural bounds. -/
theorem C10_field_validation_witness :
    demoFirstCase ∈ demoSuite.test_cases ∧ demoFirstCase.steps ≠ [] ∧
    5 ≤ demoFirstCase.title.length ∧ demoFirstCase.title.length ≤ 300 := by
  have h := (C10_field_validation demoRaw demoRequest false 3 demoSuite rfl).1
  have hmem : demoFirstCase ∈ demoSuite.test_cases := by decide
  have hv := h demoFirstCase hmem
  exact ⟨hmem, hv.1, hv.2.1, hv.2.2.1⟩

end TCGen
